import Mathlib

/-!
# S4Vectors: low-level manipulation of ordinary R vectors (`src/vector_utils.c`)

A shallow embedding of `_vector_memcmp`, `_vector_memcpy`, `get_NROW` and
`sapply_NROW`.

The C functions work on R objects through the R API.  The embedding keeps
an explicit heap (a map from object addresses to objects), passes it to every
function and returns it from the one that writes (`_vector_memcpy`);
`sapply_NROW` returns the elements of the integer vector it allocates.  The R
API itself (`LENGTH`, `TYPEOF`, `RAW`, `INTEGER`, `STRING_ELT`, `getAttrib`,
...) and the C library (`memcmp`, `memcpy`) are not part of the repository;
they are modelled here with their documented behaviour:

* the typed accessors and `LENGTH` are the checked functions of the R API:
  applied to an object of another type they raise an R error
  (`Failure.HostError`);
* a C `int` is an `Int`; the sum `offset + nelt` of the bounds checks is
  reduced to 32 bits (`wrapInt`), `nelt * eltsize` is a `size_t` (`size_t`);
* a pointer into a data area is a pair (object, byte offset); two pointers
  are equal when both components are;
* reading or writing outside a data area, and `memcpy` between overlapping
  ranges, is undefined behaviour (`Failure.Undefined`).
-/

namespace S4Vectors

/-! ## Data model -/

/-- One byte (an `unsigned char`) of a data area. -/
abbrev Byte := Fin 256

/-- The type tags of R objects (`SEXPTYPE`), as `TYPEOF` reports them. -/
inductive SEXPTYPE
  | NILSXP | SYMSXP | LISTSXP | CLOSXP | ENVSXP | PROMSXP | LANGSXP
  | SPECIALSXP | BUILTINSXP | CHARSXP | LGLSXP | INTSXP | REALSXP | CPLXSXP
  | STRSXP | DOTSXP | ANYSXP | VECSXP | EXPRSXP | BCODESXP | EXTPTRSXP
  | WEAKREFSXP | RAWSXP | S4SXP
  deriving DecidableEq, Repr

/-- An `SEXP` is the address of an R object. -/
abbrev SEXP := Nat

/-- The address of R's `NULL` object. -/
def R_NilValue : SEXP := 0

/-- The address of the symbol `row.names`. -/
def R_RowNamesSymbol : SEXP := 1

/-- The address of the symbol `dim`. -/
def R_DimSymbol : SEXP := 2

/-- An R object: its type tag, the bytes of its data area (the payload of a
vector of a fixed-width type), its element slots (the payload of a vector of
references: `STRSXP`, `VECSXP`, `EXPRSXP`) and its attributes, a list of
(symbol, value) pairs.  The value kept under `row.names` is the row-label
array as `getAttrib` presents it. -/
structure SEXPREC where
  type : SEXPTYPE
  data : List Byte
  elts : List SEXP
  attrib : List (SEXP × SEXP)

/-- The heap: the object found at each address. -/
abbrev Heap := SEXP → SEXPREC

/-- The ways a call can fail.  `OutOfBounds`, `UnsupportedType`, `NotAVector`
and `InvalidElement` are the four `error(...)` calls of `vector_utils.c`;
`HostError` is an R error raised inside an R API function; `Undefined` is
undefined behaviour of C. -/
inductive Failure
  | OutOfBounds
  | UnsupportedType (t : SEXPTYPE)
  | NotAVector
  | InvalidElement (pos : Int)
  | HostError
  | Undefined
  deriving DecidableEq, Repr

deriving instance DecidableEq for Except

/-- A pointer into the data area of an object: the object and a byte offset. -/
structure Ptr where
  base : SEXP
  off : Int
  deriving DecidableEq, Repr

/-! ## C arithmetic -/

/-- The value of a 32-bit signed `int` computation: reduction modulo `2^32`
into `[-2^31, 2^31)`. -/
def wrapInt (z : Int) : Int := (z + 2147483648) % 4294967296 - 2147483648

/-- The values a C `int` can hold. -/
def isCInt (z : Int) : Prop := -2147483648 ≤ z ∧ z < 2147483648

instance (z : Int) : Decidable (isCInt z) := by unfold isCInt; infer_instance

/-- Conversion of an integer to the 64-bit unsigned `size_t`. -/
def size_t (z : Int) : Nat := (z % 18446744073709551616).toNat

/-- Pointer arithmetic `p + i` on a pointer to elements of `eltsize` bytes. -/
def Ptr.add (p : Ptr) (i : Int) (eltsize : Nat) : Ptr := ⟨p.base, p.off + i * eltsize⟩

/-- A little-endian 32-bit signed integer from its four bytes. -/
def int_of_bytes (b0 b1 b2 b3 : Byte) : Int :=
  wrapInt ((b0.val : Int) + 256 * b1.val + 65536 * b2.val + 16777216 * b3.val)

/-! ## The R API -/

/-- R's `TYPEOF`. -/
def TYPEOF (h : Heap) (x : SEXP) : SEXPTYPE := (h x).type

/-- R's `LENGTH`: 0 for `NULL`, the number of elements of a vector (the size
of the data area divided by the element size for the fixed-width types and
for `CHARSXP`, the number of slots for `STRSXP`, `VECSXP`, `EXPRSXP` and
`WEAKREFSXP`); applied to an object of any other type it raises an R error
(`LENGTH or similar applied to ... object`). -/
def LENGTH (h : Heap) (x : SEXP) : Except Failure Int :=
  if x = R_NilValue then .ok 0
  else
    match (h x).type with
    | .RAWSXP | .CHARSXP => .ok ((h x).data.length : Int)
    | .LGLSXP | .INTSXP => .ok (((h x).data.length / 4 : Nat) : Int)
    | .REALSXP => .ok (((h x).data.length / 8 : Nat) : Int)
    | .CPLXSXP => .ok (((h x).data.length / 16 : Nat) : Int)
    | .STRSXP | .VECSXP | .EXPRSXP | .WEAKREFSXP => .ok ((h x).elts.length : Int)
    | _ => .error .HostError

/-- R's `IS_VECTOR` (`isVector`). -/
def IS_VECTOR (h : Heap) (x : SEXP) : Bool :=
  match TYPEOF h x with
  | .LGLSXP | .INTSXP | .REALSXP | .CPLXSXP | .STRSXP | .RAWSXP | .VECSXP | .EXPRSXP => true
  | _ => false

/-- R's `RAW`: the data area of a raw vector. -/
def RAW (h : Heap) (x : SEXP) : Except Failure Ptr :=
  if TYPEOF h x = .RAWSXP then .ok ⟨x, 0⟩ else .error .HostError

/-- R's `INTEGER`: the data area of an integer or logical vector. -/
def INTEGER (h : Heap) (x : SEXP) : Except Failure Ptr :=
  if TYPEOF h x = .INTSXP ∨ TYPEOF h x = .LGLSXP then .ok ⟨x, 0⟩ else .error .HostError

/-- R's `LOGICAL`: the data area of a logical vector. -/
def LOGICAL (h : Heap) (x : SEXP) : Except Failure Ptr :=
  if TYPEOF h x = .LGLSXP then .ok ⟨x, 0⟩ else .error .HostError

/-- R's `REAL`: the data area of a double vector. -/
def REAL (h : Heap) (x : SEXP) : Except Failure Ptr :=
  if TYPEOF h x = .REALSXP then .ok ⟨x, 0⟩ else .error .HostError

/-- R's `COMPLEX`: the data area of a complex vector. -/
def COMPLEX (h : Heap) (x : SEXP) : Except Failure Ptr :=
  if TYPEOF h x = .CPLXSXP then .ok ⟨x, 0⟩ else .error .HostError

/-- R's `STRING_ELT`: slot `i` of a character vector. -/
def STRING_ELT (h : Heap) (x : SEXP) (i : Int) : Except Failure SEXP :=
  if TYPEOF h x ≠ .STRSXP then .error .HostError
  else if 0 ≤ i then
    match (h x).elts.get? i.toNat with
    | some v => .ok v
    | none => .error .Undefined
  else .error .Undefined

/-- R's `VECTOR_ELT`: slot `i` of a list. -/
def VECTOR_ELT (h : Heap) (x : SEXP) (i : Int) : Except Failure SEXP :=
  if TYPEOF h x ≠ .VECSXP ∧ TYPEOF h x ≠ .EXPRSXP ∧ TYPEOF h x ≠ .WEAKREFSXP then
    .error .HostError
  else if 0 ≤ i then
    match (h x).elts.get? i.toNat with
    | some v => .ok v
    | none => .error .Undefined
  else .error .Undefined

/-- The heap in which slot `i` of the object `x` refers to `v`. -/
def setSlot (h : Heap) (x : SEXP) (i : Nat) (v : SEXP) : Heap :=
  Function.update h x { h x with elts := (h x).elts.set i v }

/-- R's `SET_STRING_ELT`: make slot `i` of a character vector refer to `v`.
(The elements of a character vector are `CHARSXP` objects by an invariant of
the host, so the host's check of the type of `v` is not modelled.) -/
def SET_STRING_ELT (h : Heap) (x : SEXP) (i : Int) (v : SEXP) : Except Failure Heap :=
  if TYPEOF h x ≠ .STRSXP then .error .HostError
  else if 0 ≤ i ∧ i < ((h x).elts.length : Int) then .ok (setSlot h x i.toNat v)
  else .error .HostError

/-- R's `SET_VECTOR_ELT`: make slot `i` of a list refer to `v`. -/
def SET_VECTOR_ELT (h : Heap) (x : SEXP) (i : Int) (v : SEXP) : Except Failure Heap :=
  if TYPEOF h x ≠ .VECSXP ∧ TYPEOF h x ≠ .EXPRSXP ∧ TYPEOF h x ≠ .WEAKREFSXP then
    .error .HostError
  else if 0 ≤ i ∧ i < ((h x).elts.length : Int) then .ok (setSlot h x i.toNat v)
  else .error .HostError

/-- Lookup of a symbol in an attribute list; `NULL` when it is not there. -/
def lookupAttrib : List (SEXP × SEXP) → SEXP → SEXP
  | [], _ => R_NilValue
  | (tag, value) :: rest, name => if tag = name then value else lookupAttrib rest name

/-- R's `getAttrib`. -/
def getAttrib (h : Heap) (x : SEXP) (name : SEXP) : SEXP := lookupAttrib (h x).attrib name

/-- R's `GET_DIM`. -/
def GET_DIM (h : Heap) (x : SEXP) : SEXP := getAttrib h x R_DimSymbol

/-! ## The C library -/

/-- The `n` bytes at `p`, when they all lie inside the data area of `p.base`. -/
def readBytes (h : Heap) (p : Ptr) (n : Nat) : Option (List Byte) :=
  if 0 ≤ p.off ∧ p.off.toNat + n ≤ (h p.base).data.length then
    some (((h p.base).data.drop p.off.toNat).take n)
  else none

/-- A data area with the bytes `bs` written at offset `off`. -/
def writeBytes (d : List Byte) (off : Nat) (bs : List Byte) : List Byte :=
  d.take off ++ bs ++ d.drop (off + bs.length)

/-- Byte-wise comparison of two byte strings: the difference of the first
pair of bytes that differ, 0 when there is none.  (C fixes only the sign of
the result of `memcmp`.) -/
def cmpBytes : List Byte → List Byte → Int
  | a :: as, b :: bs => if a = b then cmpBytes as bs else (a.val : Int) - (b.val : Int)
  | _, _ => 0

/-- C's `memcmp(s1, s2, n)`. -/
def memcmp (h : Heap) (s1 s2 : Ptr) (n : Nat) : Except Failure Int :=
  match readBytes h s1 n, readBytes h s2 n with
  | some b1, some b2 => .ok (cmpBytes b1 b2)
  | _, _ => .error .Undefined

/-- The byte ranges `[p, p + n)` and `[q, q + n)` have a byte in common. -/
def overlap (p q : Ptr) (n : Nat) : Prop :=
  p.base = q.base ∧ p.off < q.off + n ∧ q.off < p.off + n

instance (p q : Ptr) (n : Nat) : Decidable (overlap p q n) := by unfold overlap; infer_instance

/-- C's `memcpy(dest, src, n)`: the heap after the copy. -/
def memcpy (h : Heap) (dest src : Ptr) (n : Nat) : Except Failure Heap :=
  match readBytes h src n, readBytes h dest n with
  | some bs, some _ =>
    if overlap dest src n then .error .Undefined
    else .ok (Function.update h dest.base
      { h dest.base with data := writeBytes (h dest.base).data dest.off.toNat bs })
  | _, _ => .error .Undefined

/-- The `int` at index `i` of the array `p` points to (`p[i]`). -/
def load_int (h : Heap) (p : Ptr) (i : Int) : Except Failure Int :=
  match readBytes h (p.add i 4) 4 with
  | some [b0, b1, b2, b3] => .ok (int_of_bytes b0 b1 b2 b3)
  | _ => .error .Undefined

/-! ## `_vector_memcmp` -/

/-- The condition of the bounds check of `_vector_memcmp` and `_vector_memcpy`:
`x1_offset < 0 || x1_offset + nelt > LENGTH(x1) || x2_offset < 0 ||
x2_offset + nelt > LENGTH(x2)`, evaluated from left to right: `LENGTH` is
called on an object only when the tests before it are false, and its R error
ends the call. -/
def out_of_bounds (h : Heap) (x1 : SEXP) (x1_offset : Int) (x2 : SEXP) (x2_offset : Int)
    (nelt : Int) : Except Failure Bool :=
  if x1_offset < 0 then .ok true
  else
    match LENGTH h x1 with
    | .error e => .error e
    | .ok l1 =>
      if wrapInt (x1_offset + nelt) > l1 then .ok true
      else if x2_offset < 0 then .ok true
      else
        match LENGTH h x2 with
        | .error e => .error e
        | .ok l2 => if wrapInt (x2_offset + nelt) > l2 then .ok true else .ok false

/-- The pointers `s1`, `s2` of two accessor results moved by the offsets. -/
def offset_ptrs (p1 : Except Failure Ptr) (x1_offset : Int) (p2 : Except Failure Ptr)
    (x2_offset : Int) (eltsize : Nat) : Except Failure (Ptr × Ptr × Nat) :=
  match p1 with
  | .error e => .error e
  | .ok q1 =>
    match p2 with
    | .error e => .error e
    | .ok q2 => .ok (q1.add x1_offset eltsize, q2.add x2_offset eltsize, eltsize)

/-- The `switch (TYPEOF(x1))` of `_vector_memcmp`: the pointers `s1`, `s2`
and `eltsize`. -/
def memcmp_switch (h : Heap) (x1 : SEXP) (x1_offset : Int) (x2 : SEXP) (x2_offset : Int) :
    Except Failure (Ptr × Ptr × Nat) :=
  match TYPEOF h x1 with
  | .RAWSXP => offset_ptrs (RAW h x1) x1_offset (RAW h x2) x2_offset 1
  | .LGLSXP | .INTSXP => offset_ptrs (INTEGER h x1) x1_offset (INTEGER h x2) x2_offset 4
  | .REALSXP => offset_ptrs (REAL h x1) x1_offset (REAL h x2) x2_offset 8
  | .CPLXSXP => offset_ptrs (COMPLEX h x1) x1_offset (COMPLEX h x2) x2_offset 16
  | t => .error (.UnsupportedType t)

/-- `int _vector_memcmp(SEXP x1, int x1_offset, SEXP x2, int x2_offset, int nelt)`. -/
def _vector_memcmp (h : Heap) (x1 : SEXP) (x1_offset : Int) (x2 : SEXP) (x2_offset : Int)
    (nelt : Int) : Except Failure Int :=
  match out_of_bounds h x1 x1_offset x2 x2_offset nelt with
  | .error e => .error e
  | .ok true => .error .OutOfBounds
  | .ok false =>
    match memcmp_switch h x1 x1_offset x2 x2_offset with
    | .error e => .error e
    | .ok (s1, s2, eltsize) =>
      if s1 = s2 then .ok 0 else memcmp h s1 s2 (size_t (nelt * eltsize))

/-! ## `_vector_memcpy` -/

/-- The tail of `_vector_memcpy` for the fixed-width types:
`memcpy(dest, src, nelt * eltsize)` on the pointers of the switch. -/
def memcpy_tail (h : Heap) (ptrs : Except Failure (Ptr × Ptr × Nat)) (nelt : Int) :
    Heap × Except Failure Unit :=
  match ptrs with
  | .error e => (h, .error e)
  | .ok (dest, src, eltsize) =>
    match memcpy h dest src (size_t (nelt * eltsize)) with
    | .error e => (h, .error e)
    | .ok h1 => (h1, .ok ())

/-- The loop of `case STRSXP` and of `case VECSXP`, with `k` iterations left
and loop variable `i`:
`in_elt = GET(in, in_offset + i); SET(out, out_offset + i, in_elt);`
where `GET`/`SET` are `STRING_ELT`/`SET_STRING_ELT` or
`VECTOR_ELT`/`SET_VECTOR_ELT`. -/
def slot_loop (GET : Heap → SEXP → Int → Except Failure SEXP)
    (SET : Heap → SEXP → Int → SEXP → Except Failure Heap)
    (out : SEXP) (out_offset : Int) (in_ : SEXP) (in_offset : Int) :
    Nat → Int → Heap → Heap × Except Failure Unit
  | 0, _, h => (h, .ok ())
  | k + 1, i, h =>
    match GET h in_ (wrapInt (in_offset + i)) with
    | .error e => (h, .error e)
    | .ok in_elt =>
      match SET h out (wrapInt (out_offset + i)) in_elt with
      | .error e => (h, .error e)
      | .ok h1 => slot_loop GET SET out out_offset in_ in_offset k (i + 1) h1

/-- `void _vector_memcpy(SEXP out, int out_offset, SEXP in, int in_offset, int nelt)`:
the heap when the call ends and how it ends.  The loops `for (i = 0; i < nelt; i++)`
make `nelt` iterations (none when `nelt ≤ 0`). -/
def _vector_memcpy (h : Heap) (out : SEXP) (out_offset : Int) (in_ : SEXP) (in_offset : Int)
    (nelt : Int) : Heap × Except Failure Unit :=
  match out_of_bounds h out out_offset in_ in_offset nelt with
  | .error e => (h, .error e)
  | .ok true => (h, .error .OutOfBounds)
  | .ok false =>
    match TYPEOF h out with
    | .RAWSXP =>
      memcpy_tail h (offset_ptrs (RAW h out) out_offset (RAW h in_) in_offset 1) nelt
    | .LGLSXP =>
      memcpy_tail h (offset_ptrs (LOGICAL h out) out_offset (LOGICAL h in_) in_offset 4) nelt
    | .INTSXP =>
      memcpy_tail h (offset_ptrs (INTEGER h out) out_offset (INTEGER h in_) in_offset 4) nelt
    | .REALSXP =>
      memcpy_tail h (offset_ptrs (REAL h out) out_offset (REAL h in_) in_offset 8) nelt
    | .CPLXSXP =>
      memcpy_tail h (offset_ptrs (COMPLEX h out) out_offset (COMPLEX h in_) in_offset 16) nelt
    | .STRSXP =>
      slot_loop STRING_ELT SET_STRING_ELT out out_offset in_ in_offset nelt.toNat 0 h
    | .VECSXP =>
      slot_loop VECTOR_ELT SET_VECTOR_ELT out out_offset in_ in_offset nelt.toNat 0 h
    | t => (h, .error (.UnsupportedType t))

/-! ## `get_NROW` -/

/-- `static int get_NROW(SEXP x)`. -/
def get_NROW (h : Heap) (x : SEXP) : Except Failure Int :=
  if x = R_NilValue then .ok 0
  else if !IS_VECTOR h x then .error .NotAVector
  else
    let x_rownames := getAttrib h x R_RowNamesSymbol
    if x_rownames ≠ R_NilValue then LENGTH h x_rownames
    else
      let x_dim := GET_DIM h x
      if x_dim = R_NilValue then LENGTH h x
      else
        match LENGTH h x_dim with
        | .error e => .error e
        | .ok x_dim_len =>
          if x_dim_len = 0 then LENGTH h x
          else
            match INTEGER h x_dim with
            | .error e => .error e
            | .ok p => load_int h p 0

/-! ## `sapply_NROW` -/

/-- The loop of `sapply_NROW`, with `k` iterations left, loop variable `i` and
`ans` the elements of the answer written so far:
`x_elt = VECTOR_ELT(x, i); if (x_elt != R_NilValue && !IS_VECTOR(x_elt)) error(...);
*ans_elt = get_NROW(x_elt);`.  (`i < x_len`, so `i + 1` does not overflow.) -/
def sapply_loop (h : Heap) (x : SEXP) : Nat → Int → List Int → Except Failure (List Int)
  | 0, _, ans => .ok ans
  | k + 1, i, ans =>
    match VECTOR_ELT h x i with
    | .error e => .error e
    | .ok x_elt =>
      if x_elt ≠ R_NilValue ∧ IS_VECTOR h x_elt = false then .error (.InvalidElement (i + 1))
      else
        match get_NROW h x_elt with
        | .error e => .error e
        | .ok r => sapply_loop h x k (i + 1) (ans ++ [r])

/-- `SEXP sapply_NROW(SEXP x)`: the elements of the integer vector `ans` it
returns, a fresh vector of `x_len = LENGTH(x)` elements which the loop fills
from the first to the last. -/
def sapply_NROW (h : Heap) (x : SEXP) : Except Failure (List Int) :=
  match LENGTH h x with
  | .error e => .error e
  | .ok x_len => sapply_loop h x x_len.toNat 0 []

/-! ## Vocabulary of the statements -/

/-- The size in bytes of an element of a vector of a fixed-width type: the
values `sizeof(Rbyte)`, `sizeof(int)`, `sizeof(double)` and `sizeof(Rcomplex)`
that the two switches give to `eltsize` (0 for the other types). -/
def eltsize_of : SEXPTYPE → Nat
  | .RAWSXP => 1
  | .LGLSXP => 4
  | .INTSXP => 4
  | .REALSXP => 8
  | .CPLXSXP => 16
  | _ => 0

/-- The fixed-width element kinds: byte, boolean, integer, floating-point,
complex-pair. -/
def fixed_width : SEXPTYPE → Bool
  | .RAWSXP | .LGLSXP | .INTSXP | .REALSXP | .CPLXSXP => true
  | _ => false

/-- The reference element kinds: text-string, arbitrary-object. -/
def reference_kind : SEXPTYPE → Bool
  | .STRSXP | .VECSXP => true
  | _ => false

/-- The seven element kinds `_vector_memcpy` handles. -/
def supported_kind (t : SEXPTYPE) : Bool := fixed_width t || reference_kind t

/-- The `NULL` object. -/
def nilObject : SEXPREC := ⟨.NILSXP, [], [], []⟩

/-- The heap that holds the objects of a list at the addresses 0, 1, 2, ...
and the `NULL` object everywhere else. -/
def heapOf (objs : List SEXPREC) : Heap := fun x => objs.getD x nilObject

/-- The slice of the data area that holds the elements `o`, ..., `o + n - 1`
of a fixed-width vector. -/
def range_bytes (h : Heap) (x : SEXP) (o n : Nat) : List Byte :=
  ((h x).data.drop (o * eltsize_of (TYPEOF h x))).take (n * eltsize_of (TYPEOF h x))

/-- An example heap.  Address 0 is `NULL`, 1 and 2 are the symbols `row.names`
and `dim`; 3 and 4 are raw vectors, 5 and 6 character vectors, 7 a list, 8 an
integer vector (the dimensions 2, 3), 9 an integer matrix with the `dim`
attribute 8, 10 and 11 `CHARSXP` strings, 12 a data frame with three row
labels (13) which also carries a `dim` attribute, 13 its row labels, 14 a
closure, 15 an integer vector, 16 a double vector, 17 a logical vector. -/
def exampleHeap : Heap := heapOf [
  nilObject,
  ⟨.SYMSXP, [], [], []⟩,
  ⟨.SYMSXP, [], [], []⟩,
  ⟨.RAWSXP, [1, 2, 3, 4, 5], [], []⟩,
  ⟨.RAWSXP, [1, 2, 4, 4, 5], [], []⟩,
  ⟨.STRSXP, [], [10, 11], []⟩,
  ⟨.STRSXP, [], [11, 11, 10], []⟩,
  ⟨.VECSXP, [], [3, 5], []⟩,
  ⟨.INTSXP, [2, 0, 0, 0, 3, 0, 0, 0], [], []⟩,
  ⟨.INTSXP, [1, 0, 0, 0, 2, 0, 0, 0, 3, 0, 0, 0, 4, 0, 0, 0, 5, 0, 0, 0, 6, 0, 0, 0], [],
    [(R_DimSymbol, 8)]⟩,
  ⟨.CHARSXP, [97], [], []⟩,
  ⟨.CHARSXP, [98], [], []⟩,
  ⟨.VECSXP, [], [15, 16], [(R_DimSymbol, 8), (R_RowNamesSymbol, 13)]⟩,
  ⟨.STRSXP, [], [10, 11, 10], []⟩,
  ⟨.CLOSXP, [], [], []⟩,
  ⟨.INTSXP, [7, 0, 0, 0, 8, 0, 0, 0, 9, 0, 0, 0], [], []⟩,
  ⟨.REALSXP, [0, 0, 0, 0, 0, 0, 240, 63, 0, 0, 0, 0, 0, 0, 0, 64, 0, 0, 0, 0, 0, 0, 8, 64], [], []⟩,
  ⟨.LGLSXP, [1, 0, 0, 0, 0, 0, 0, 0], [], []⟩]

/-- The `dim` attribute of `v`, when there is one, is an integer vector (the
host keeps it so: setting `dim` coerces the value to integer). -/
def dim_is_integer (h : Heap) (v : SEXP) : Prop :=
  GET_DIM h v = R_NilValue ∨ TYPEOF h (GET_DIM h v) = .INTSXP

instance (h : Heap) (v : SEXP) : Decidable (dim_is_integer h v) := by
  unfold dim_is_integer; infer_instance

/-- The `row.names` attribute of `v`, when there is one, is a vector (the host
keeps it so: setting `row.names` accepts integer and character vectors only). -/
def row_names_is_vector (h : Heap) (v : SEXP) : Prop :=
  getAttrib h v R_RowNamesSymbol = R_NilValue
    ∨ IS_VECTOR h (getAttrib h v R_RowNamesSymbol) = true

instance (h : Heap) (v : SEXP) : Decidable (row_names_is_vector h v) := by
  unfold row_names_is_vector; infer_instance

/-- A second example heap, for `sapply_NROW`.  Address 0 is `NULL`, 1 and 2 are
the symbols `row.names` and `dim`; 3 is an integer vector of length 4, 4 a data
frame with two row labels (6) and one column (7), 5 the list of 3, `NULL` and
4, 6 the row labels, 7 an integer vector of length 2, 8 and 9 `CHARSXP`
strings, 10 a closure, 11 the list of 3 and 10, 12 an integer vector of
length 0, 13 a double vector of length 3 whose `dim` attribute is 12. -/
def collectionHeap : Heap := heapOf [
  nilObject,
  ⟨.SYMSXP, [], [], []⟩,
  ⟨.SYMSXP, [], [], []⟩,
  ⟨.INTSXP, [1, 0, 0, 0, 2, 0, 0, 0, 3, 0, 0, 0, 4, 0, 0, 0], [], []⟩,
  ⟨.VECSXP, [], [7], [(R_RowNamesSymbol, 6)]⟩,
  ⟨.VECSXP, [], [3, 0, 4], []⟩,
  ⟨.STRSXP, [], [8, 9], []⟩,
  ⟨.INTSXP, [5, 0, 0, 0, 6, 0, 0, 0], [], []⟩,
  ⟨.CHARSXP, [97], [], []⟩,
  ⟨.CHARSXP, [98], [], []⟩,
  ⟨.CLOSXP, [], [], []⟩,
  ⟨.VECSXP, [], [3, 10], []⟩,
  ⟨.INTSXP, [], [], []⟩,
  ⟨.REALSXP, [0, 0, 0, 0, 0, 0, 240, 63, 0, 0, 0, 0, 0, 0, 0, 64, 0, 0, 0, 0, 0, 0, 8, 64], [],
    [(R_DimSymbol, 12)]⟩]

/-! ## Arithmetic lemmas -/

theorem wrapInt_of_isCInt {z : Int} (hz : isCInt z) : wrapInt z = z := by
  unfold isCInt at hz
  unfold wrapInt
  omega

theorem wrapInt_le_self {z : Int} (h0 : 0 ≤ z) : wrapInt z ≤ z := by
  unfold wrapInt
  omega

/-- A range that lies inside both vectors passes the bounds check. -/
theorem not_out_of_bounds (h : Heap) (x1 x2 : SEXP) (o1 o2 n : Nat) (l1 l2 : Int)
    (hl1 : LENGTH h x1 = .ok l1) (hl2 : LENGTH h x2 = .ok l2)
    (h1 : (o1 : Int) + n ≤ l1) (h2 : (o2 : Int) + n ≤ l2) :
    out_of_bounds h x1 o1 x2 o2 n = .ok false := by
  have w1 := wrapInt_le_self (z := (o1 : Int) + n) (by omega)
  have w2 := wrapInt_le_self (z := (o2 : Int) + n) (by omega)
  unfold out_of_bounds
  rw [hl1, hl2]
  simp only
  rw [if_neg (by omega), if_neg (by omega), if_neg (by omega), if_neg (by omega)]

theorem size_t_mul (n w : Nat) (hn : isCInt n) (hw : w ≤ 16) :
    size_t ((n : Int) * (w : Int)) = n * w := by
  unfold isCInt at hn
  unfold size_t
  have h1 : (n : Int) * (w : Int) = ((n * w : Nat) : Int) := by push_cast; ring
  have h2 : n * w < 18446744073709551616 := by nlinarith
  rw [h1]
  omega

theorem eltsize_of_le (t : SEXPTYPE) : eltsize_of t ≤ 16 := by
  cases t <;> simp [eltsize_of]

theorem eltsize_of_pos {t : SEXPTYPE} (ht : fixed_width t = true) : 0 < eltsize_of t := by
  cases t <;> simp_all [eltsize_of, fixed_width]

/-- For a vector of a fixed-width type, `LENGTH` elements fit in the data area. -/
theorem LENGTH_fixed (h : Heap) (x : SEXP) (hf : fixed_width (TYPEOF h x) = true) (l : Int)
    (hl : LENGTH h x = .ok l) :
    ∃ L : Nat, l = L ∧ L * eltsize_of (TYPEOF h x) ≤ (h x).data.length := by
  unfold LENGTH at hl
  by_cases hx : x = R_NilValue
  · rw [if_pos hx] at hl
    simp only [Except.ok.injEq] at hl
    exact ⟨0, by omega, by simp⟩
  · unfold TYPEOF at hf ⊢
    rw [if_neg hx] at hl
    cases ht : (h x).type <;> rw [ht] at hl hf <;> simp [fixed_width] at hf <;>
      simp only [Except.ok.injEq] at hl <;> simp only [eltsize_of]
    · exact ⟨_, hl.symm, Nat.div_mul_le_self _ _⟩
    · exact ⟨_, hl.symm, Nat.div_mul_le_self _ _⟩
    · exact ⟨_, hl.symm, Nat.div_mul_le_self _ _⟩
    · exact ⟨_, hl.symm, Nat.div_mul_le_self _ _⟩
    · exact ⟨_, hl.symm, by omega⟩

/-- A range of elements inside a fixed-width vector is a range of bytes inside
its data area. -/
theorem bytes_in_bounds (h : Heap) (x : SEXP) (o n : Nat)
    (hf : fixed_width (TYPEOF h x) = true) (l : Int) (hl : LENGTH h x = .ok l)
    (hb : (o : Int) + n ≤ l) :
    o * eltsize_of (TYPEOF h x) + n * eltsize_of (TYPEOF h x) ≤ (h x).data.length := by
  obtain ⟨L, hL, hle⟩ := LENGTH_fixed h x hf l hl
  have h1 : o + n ≤ L := by omega
  calc o * eltsize_of (TYPEOF h x) + n * eltsize_of (TYPEOF h x)
      = (o + n) * eltsize_of (TYPEOF h x) := by ring
    _ ≤ L * eltsize_of (TYPEOF h x) := Nat.mul_le_mul_right _ h1
    _ ≤ (h x).data.length := hle

/-! ## Lemmas on the C library model -/

theorem readBytes_ofNat (h : Heap) (x : SEXP) (k n : Nat)
    (hk : k + n ≤ (h x).data.length) :
    readBytes h ⟨x, (k : Int)⟩ n = some (((h x).data.drop k).take n) := by
  unfold readBytes
  simp [hk]

theorem cmpBytes_self (l : List Byte) : cmpBytes l l = 0 := by
  induction l with
  | nil => rfl
  | cons a l ih => simp [cmpBytes, ih]

theorem byte_sub_ne_zero {a b : Byte} (hab : a ≠ b) : (a.val : Int) - (b.val : Int) ≠ 0 := by
  intro h0
  apply hab
  apply Fin.ext
  omega

/-- On byte strings of one length `cmpBytes` is 0 exactly when they are equal. -/
theorem cmpBytes_eq_zero_iff :
    ∀ (l1 l2 : List Byte), l1.length = l2.length → (cmpBytes l1 l2 = 0 ↔ l1 = l2)
  | [], [], _ => by simp [cmpBytes]
  | [], _ :: _, hl => by simp at hl
  | _ :: _, [], hl => by simp at hl
  | a :: as, b :: bs, hl => by
    have ih := cmpBytes_eq_zero_iff as bs (by simpa using hl)
    by_cases hab : a = b
    · simp [cmpBytes, hab, ih]
    · simp [cmpBytes, hab, byte_sub_ne_zero hab]

/-- After a common prefix, `cmpBytes` is the difference of the next two bytes
when they differ. -/
theorem cmpBytes_first_diff :
    ∀ (k : Nat) (l1 l2 : List Byte) (a b : Byte),
      (∀ j, j < k → l1[j]? = l2[j]?) → l1[k]? = some a → l2[k]? = some b → a ≠ b →
      cmpBytes l1 l2 = (a.val : Int) - (b.val : Int)
  | _, [], _, _, _, _, h1, _, _ => by simp at h1
  | _, _ :: _, [], _, _, _, _, h2, _ => by simp at h2
  | 0, x :: xs, y :: ys, a, b, _, h1, h2, hab => by
    simp at h1 h2
    subst h1 h2
    simp [cmpBytes, hab]
  | k + 1, x :: xs, y :: ys, a, b, hpre, h1, h2, hab => by
    have hxy : x = y := by simpa using hpre 0 (Nat.succ_pos k)
    have ih := cmpBytes_first_diff k xs ys a b
      (fun j hj => by simpa using hpre (j + 1) (Nat.succ_lt_succ hj))
      (by simpa using h1) (by simpa using h2) hab
    simp [cmpBytes, hxy, ih]

/-- Byte `k` of a slice of a data area. -/
theorem getElem?_slice (d : List Byte) (off n k : Nat) (hk : k < n) :
    ((d.drop off).take n)[k]? = d[off + k]? := by
  rw [List.getElem?_take_of_lt hk, List.getElem?_drop]

theorem slice_length (d : List Byte) (off n : Nat) (hb : off + n ≤ d.length) :
    ((d.drop off).take n).length = n := by
  simp
  omega

/-- Two slices of one size are equal exactly when their bytes are pairwise equal. -/
theorem slice_eq_iff (d1 d2 : List Byte) (o1 o2 n : Nat)
    (h1 : o1 + n ≤ d1.length) (h2 : o2 + n ≤ d2.length) :
    (d1.drop o1).take n = (d2.drop o2).take n ↔ ∀ k, k < n → d1[o1 + k]? = d2[o2 + k]? := by
  constructor
  · intro heq k hk
    rw [← getElem?_slice d1 o1 n k hk, ← getElem?_slice d2 o2 n k hk, heq]
  · intro hall
    apply List.ext_getElem?
    intro k
    by_cases hk : k < n
    · rw [getElem?_slice d1 o1 n k hk, getElem?_slice d2 o2 n k hk]
      exact hall k hk
    · rw [List.getElem?_eq_none (by rw [slice_length d1 o1 n h1]; omega),
        List.getElem?_eq_none (by rw [slice_length d2 o2 n h2]; omega)]

/-! ## `_vector_memcmp` on vectors of one fixed-width type -/

/-- The switch of `_vector_memcmp` on two vectors of one fixed-width type. -/
theorem memcmp_switch_fixed (h : Heap) (x1 x2 : SEXP) (o1 o2 : Int)
    (hf : fixed_width (TYPEOF h x1) = true) (ht : TYPEOF h x2 = TYPEOF h x1) :
    memcmp_switch h x1 o1 x2 o2
      = .ok (⟨x1, o1 * (eltsize_of (TYPEOF h x1) : Int)⟩,
             ⟨x2, o2 * (eltsize_of (TYPEOF h x1) : Int)⟩, eltsize_of (TYPEOF h x1)) := by
  unfold memcmp_switch
  cases hty : TYPEOF h x1 <;> rw [hty] at hf ht <;>
    simp_all [fixed_width, eltsize_of, RAW, INTEGER, REAL, COMPLEX, offset_ptrs, Ptr.add]

/-- On in-bounds ranges of two vectors of one fixed-width type `_vector_memcmp`
returns the byte-wise comparison of the two ranges, on the fast path too. -/
theorem vector_memcmp_fixed (h : Heap) (x1 x2 : SEXP) (o1 o2 n : Nat) (l1 l2 : Int)
    (hf : fixed_width (TYPEOF h x1) = true) (ht : TYPEOF h x2 = TYPEOF h x1)
    (hL1 : LENGTH h x1 = .ok l1) (hL2 : LENGTH h x2 = .ok l2) (hl1 : isCInt l1)
    (h1 : (o1 : Int) + n ≤ l1) (h2 : (o2 : Int) + n ≤ l2) :
    _vector_memcmp h x1 o1 x2 o2 n
      = .ok (cmpBytes (range_bytes h x1 o1 n) (range_bytes h x2 o2 n)) := by
  have hn : isCInt n := by unfold isCInt at hl1 ⊢; omega
  have hw := eltsize_of_le (TYPEOF h x1)
  have hpos := eltsize_of_pos hf
  have b1 := bytes_in_bounds h x1 o1 n hf l1 hL1 h1
  have b2 := bytes_in_bounds h x2 o2 n (by rw [ht]; exact hf) l2 hL2 h2
  rw [ht] at b2
  unfold _vector_memcmp
  rw [not_out_of_bounds h x1 x2 o1 o2 n l1 l2 hL1 hL2 h1 h2]
  simp only
  rw [memcmp_switch_fixed h x1 x2 o1 o2 hf ht]
  simp only [range_bytes, ht]
  have c1 : (o1 : Int) * (eltsize_of (TYPEOF h x1) : Int)
      = ((o1 * eltsize_of (TYPEOF h x1) : Nat) : Int) := by push_cast; ring
  have c2 : (o2 : Int) * (eltsize_of (TYPEOF h x1) : Int)
      = ((o2 * eltsize_of (TYPEOF h x1) : Nat) : Int) := by push_cast; ring
  rw [c1, c2, size_t_mul n _ hn hw]
  split
  · rename_i heq
    simp only [Ptr.mk.injEq] at heq
    obtain ⟨hx, ho⟩ := heq
    have ho2 : o1 * eltsize_of (TYPEOF h x1) = o2 * eltsize_of (TYPEOF h x1) := by exact_mod_cast ho
    subst hx
    rw [ho2, cmpBytes_self]
  · unfold memcmp
    rw [readBytes_ofNat h x1 _ _ b1, readBytes_ofNat h x2 _ _ b2]

/-! ## Claims on `_vector_memcmp` -/

/-- C2: for two arrays `a`, `b` of one fixed-width kind and every valid range,
`compare_range` (`_vector_memcmp`) returns a value, and that value is 0 if and
only if each of the `n * element_width` corresponding byte pairs of the two
ranges is equal.  The lengths are the values `LENGTH` returns for `a` and
`b`; that of `a` is an `int`.
(Proved for every pair of arrays, the same array included.) -/
theorem C2_compare_zero_iff_bytes_equal (h : Heap) (a b : SEXP) (a_offset b_offset n : Nat)
    (length_a length_b : Int)
    (hf : fixed_width (TYPEOF h a) = true) (ht : TYPEOF h b = TYPEOF h a)
    (hLa : LENGTH h a = .ok length_a) (hLb : LENGTH h b = .ok length_b)
    (hla : isCInt length_a)
    (ha : (a_offset : Int) + n ≤ length_a) (hb : (b_offset : Int) + n ≤ length_b) :
    ∃ r, _vector_memcmp h a a_offset b b_offset n = .ok r ∧
      (r = 0 ↔ ∀ k, k < n * eltsize_of (TYPEOF h a) →
        (h a).data[a_offset * eltsize_of (TYPEOF h a) + k]?
          = (h b).data[b_offset * eltsize_of (TYPEOF h a) + k]?) := by
  refine ⟨_, vector_memcmp_fixed h a b a_offset b_offset n length_a length_b hf ht hLa hLb hla ha hb, ?_⟩
  have b1 := bytes_in_bounds h a a_offset n hf length_a hLa ha
  have b2 := bytes_in_bounds h b b_offset n (by rw [ht]; exact hf) length_b hLb hb
  rw [ht] at b2
  rw [cmpBytes_eq_zero_iff _ _ (by
    unfold range_bytes
    rw [ht, slice_length _ _ _ b1, slice_length _ _ _ b2])]
  unfold range_bytes
  rw [ht]
  exact slice_eq_iff _ _ _ _ _ b1 b2

/-- Witness of C2: the raw vectors 3 and 4 of the example heap, compared in full. -/
theorem C2_compare_zero_iff_bytes_equal_witness :
    ∃ r, _vector_memcmp exampleHeap 3 (0 : Nat) 4 (0 : Nat) (5 : Nat) = .ok r ∧
      (r = 0 ↔ ∀ k, k < 5 * eltsize_of (TYPEOF exampleHeap 3) →
        (exampleHeap 3).data[0 * eltsize_of (TYPEOF exampleHeap 3) + k]?
          = (exampleHeap 4).data[0 * eltsize_of (TYPEOF exampleHeap 3) + k]?) :=
  C2_compare_zero_iff_bytes_equal exampleHeap 3 4 0 0 5 5 5 (by decide) (by decide) (by decide)
    (by decide) (by decide) (by decide) (by decide)

/-- C3: for two arrays of one fixed-width kind and valid ranges whose byte
ranges differ, with `k` the first position where they differ and `x`, `y` the
bytes of `a` and of `b` there, `compare_range` (`_vector_memcmp`) returns a
nonzero value, negative when `x < y` and positive when `y < x` (bytes compared
as unsigned values).  The lengths are the values `LENGTH` returns for `a`
and `b`; that of `a` is an `int`. -/
theorem C3_compare_sign_first_difference (h : Heap) (a b : SEXP) (a_offset b_offset n : Nat)
    (length_a length_b : Int)
    (hf : fixed_width (TYPEOF h a) = true) (ht : TYPEOF h b = TYPEOF h a)
    (hLa : LENGTH h a = .ok length_a) (hLb : LENGTH h b = .ok length_b)
    (hla : isCInt length_a)
    (ha : (a_offset : Int) + n ≤ length_a) (hb : (b_offset : Int) + n ≤ length_b)
    (k : Nat) (x y : Byte) (hk : k < n * eltsize_of (TYPEOF h a))
    (hpre : ∀ j, j < k → (h a).data[a_offset * eltsize_of (TYPEOF h a) + j]?
      = (h b).data[b_offset * eltsize_of (TYPEOF h a) + j]?)
    (hx : (h a).data[a_offset * eltsize_of (TYPEOF h a) + k]? = some x)
    (hy : (h b).data[b_offset * eltsize_of (TYPEOF h a) + k]? = some y)
    (hxy : x ≠ y) :
    ∃ r, _vector_memcmp h a a_offset b b_offset n = .ok r ∧ r ≠ 0
      ∧ (x < y → r < 0) ∧ (y < x → 0 < r) := by
  refine ⟨_, vector_memcmp_fixed h a b a_offset b_offset n length_a length_b hf ht hLa hLb hla ha hb, ?_⟩
  have hc : cmpBytes (range_bytes h a a_offset n) (range_bytes h b b_offset n)
      = (x.val : Int) - (y.val : Int) := by
    apply cmpBytes_first_diff k
    · intro j hj
      unfold range_bytes
      rw [ht, getElem?_slice _ _ _ _ (by omega), getElem?_slice _ _ _ _ (by omega)]
      exact hpre j hj
    · unfold range_bytes
      rw [getElem?_slice _ _ _ _ hk]
      exact hx
    · unfold range_bytes
      rw [ht, getElem?_slice _ _ _ _ hk]
      exact hy
    · exact hxy
  rw [hc]
  refine ⟨byte_sub_ne_zero hxy, ?_, ?_⟩
  · intro hlt
    have : x.val < y.val := hlt
    omega
  · intro hlt
    have : y.val < x.val := hlt
    omega

/-- Witness of C3: the raw vectors 3 and 4 of the example heap first differ at
byte 2, where 3 holds the byte 3 and 4 the byte 4. -/
theorem C3_compare_sign_first_difference_witness :
    ∃ r, _vector_memcmp exampleHeap 3 (0 : Nat) 4 (0 : Nat) (5 : Nat) = .ok r ∧ r ≠ 0
      ∧ ((3 : Byte) < 4 → r < 0) ∧ ((4 : Byte) < 3 → 0 < r) :=
  C3_compare_sign_first_difference exampleHeap 3 4 0 0 5 5 5 (by decide) (by decide) (by decide)
    (by decide) (by decide) (by decide) (by decide) 2 3 4 (by decide) (by decide) (by decide) (by decide) (by decide)

/-- C4: for every array `a` of a fixed-width kind, of length `length_a` (the
`int` that `LENGTH` returns), comparing a valid range of `a` with that same
range of `a` returns 0 (in particular `compare_range(a, 0, a, 0, length(a))`),
and on this identity fast path, where the two pointers `s1` and `s2` of the
switch are equal, the byte-wise comparison `memcmp(s1, s2, nelt * eltsize)`
that is skipped would return 0 as well. -/
theorem C4_self_comparison_is_zero (h : Heap) (a : SEXP) (offset n : Nat) (length_a : Int)
    (hf : fixed_width (TYPEOF h a) = true) (hLa : LENGTH h a = .ok length_a)
    (hla : isCInt length_a) (ha : (offset : Int) + n ≤ length_a) :
    _vector_memcmp h a offset a offset n = .ok 0
      ∧ _vector_memcmp h a 0 a 0 length_a = .ok 0
      ∧ ∃ s eltsize, memcmp_switch h a offset a offset = .ok (s, s, eltsize)
          ∧ memcmp h s s (size_t (n * eltsize)) = .ok 0 := by
  have hn : isCInt n := by unfold isCInt at hla ⊢; omega
  refine ⟨?_, ?_, ?_⟩
  · rw [vector_memcmp_fixed h a a offset offset n length_a length_a hf rfl hLa hLa hla ha ha,
      cmpBytes_self]
  · obtain ⟨L, hL, _⟩ := LENGTH_fixed h a hf length_a hLa
    have h0 : ((0 : Nat) : Int) + (L : Int) ≤ length_a := by omega
    have := vector_memcmp_fixed h a a 0 0 L length_a length_a hf rfl hLa hLa hla h0 h0
    rw [cmpBytes_self] at this
    rw [hL]
    exact_mod_cast this
  · refine ⟨_, _, memcmp_switch_fixed h a a offset offset hf rfl, ?_⟩
    have c1 : (offset : Int) * (eltsize_of (TYPEOF h a) : Int)
        = ((offset * eltsize_of (TYPEOF h a) : Nat) : Int) := by push_cast; ring
    rw [c1, size_t_mul n _ hn (eltsize_of_le _)]
    unfold memcmp
    rw [readBytes_ofNat h a _ _ (bytes_in_bounds h a offset n hf length_a hLa ha)]
    simp only [cmpBytes_self]

/-- Witness of C4: the range of the elements 1 and 2 of the integer vector 15
(of length 3) of the example heap. -/
theorem C4_self_comparison_is_zero_witness :
    _vector_memcmp exampleHeap 15 (1 : Nat) 15 (1 : Nat) (2 : Nat) = .ok 0
      ∧ _vector_memcmp exampleHeap 15 0 15 0 3 = .ok 0
      ∧ ∃ s eltsize, memcmp_switch exampleHeap 15 (1 : Nat) 15 (1 : Nat) = .ok (s, s, eltsize)
          ∧ memcmp exampleHeap s s (size_t ((2 : Nat) * eltsize)) = .ok 0 :=
  C4_self_comparison_is_zero exampleHeap 15 1 2 3 (by decide) (by decide) (by decide)
    (by decide)

/-- C7: on in-bounds ranges (the lengths being the values `LENGTH` returns,
that of the first array an `int`), `compare_range` (`_vector_memcmp`) fails
with the `UnsupportedType` error when the first array is of a reference kind
(text-string or arbitrary-object), and returns a value (it does not fail) when
the two arrays are of one fixed-width kind. -/
theorem C7_compare_reference_kinds_unsupported (h : Heap) (a b : SEXP)
    (a_offset b_offset n : Nat) (length_a length_b : Int)
    (hLa : LENGTH h a = .ok length_a) (hLb : LENGTH h b = .ok length_b)
    (hla : isCInt length_a)
    (ha : (a_offset : Int) + n ≤ length_a) (hb : (b_offset : Int) + n ≤ length_b) :
    (reference_kind (TYPEOF h a) = true →
        _vector_memcmp h a a_offset b b_offset n = .error (.UnsupportedType (TYPEOF h a)))
      ∧ (fixed_width (TYPEOF h a) = true → TYPEOF h b = TYPEOF h a →
        ∃ r, _vector_memcmp h a a_offset b b_offset n = .ok r) := by
  constructor
  · intro hr
    unfold _vector_memcmp
    rw [not_out_of_bounds h a b a_offset b_offset n length_a length_b hLa hLb ha hb]
    simp only
    unfold memcmp_switch
    cases hty : TYPEOF h a <;> rw [hty] at hr <;> simp_all [reference_kind]
  · intro hf ht
    exact ⟨_, vector_memcmp_fixed h a b a_offset b_offset n length_a length_b hf ht hLa hLb
      hla ha hb⟩

/-- Witness of C7: in the example heap, the character vectors 5 and 6 (of
lengths 2 and 3) are refused and the raw vectors 3 and 4 (of length 5) are
compared. -/
theorem C7_compare_reference_kinds_unsupported_witness :
    _vector_memcmp exampleHeap 5 (0 : Nat) 6 (1 : Nat) (2 : Nat)
        = .error (.UnsupportedType (TYPEOF exampleHeap 5))
      ∧ ∃ r, _vector_memcmp exampleHeap 3 (0 : Nat) 4 (0 : Nat) (5 : Nat) = .ok r :=
  ⟨(C7_compare_reference_kinds_unsupported exampleHeap 5 6 0 1 2 2 3 (by decide) (by decide)
      (by decide) (by decide) (by decide)).1 (by decide),
   (C7_compare_reference_kinds_unsupported exampleHeap 3 4 0 0 5 5 5 (by decide) (by decide)
      (by decide) (by decide) (by decide)).2 (by decide) (by decide)⟩

/-! ## Lemmas on `_vector_memcpy` -/

theorem writeBytes_length (d : List Byte) (off : Nat) (bs : List Byte)
    (hb : off + bs.length ≤ d.length) : (writeBytes d off bs).length = d.length := by
  unfold writeBytes
  simp
  omega

/-- Byte `j` of a data area after a write: a written byte inside the written
range, the old byte outside. -/
theorem writeBytes_getElem? (d : List Byte) (off : Nat) (bs : List Byte) (j : Nat)
    (hb : off + bs.length ≤ d.length) :
    (writeBytes d off bs)[j]?
      = if off ≤ j ∧ j < off + bs.length then bs[j - off]? else d[j]? := by
  unfold writeBytes
  by_cases h1 : j < off
  · rw [List.append_assoc, List.getElem?_append_left (by simp; omega)]
    rw [List.getElem?_take_of_lt h1, if_neg (by omega)]
  · have hlen : (d.take off).length = off := by simp; omega
    rw [List.append_assoc, List.getElem?_append_right (by omega), hlen]
    by_cases h2 : j < off + bs.length
    · rw [List.getElem?_append_left (by omega), if_pos (by omega)]
    · rw [List.getElem?_append_right (by omega), if_neg (by omega), List.getElem?_drop]
      congr 1
      omega

/-- The copy of `_vector_memcpy` between two distinct vectors of one
fixed-width type: the bytes of the source range are written over the
destination range. -/
theorem vector_memcpy_fixed (h : Heap) (out inp : SEXP) (oo io n : Nat) (lo li : Int)
    (hne : out ≠ inp)
    (hf : fixed_width (TYPEOF h out) = true) (ht : TYPEOF h inp = TYPEOF h out)
    (hLo : LENGTH h out = .ok lo) (hLi : LENGTH h inp = .ok li) (hlo : isCInt lo)
    (ho : (oo : Int) + n ≤ lo) (hi : (io : Int) + n ≤ li) :
    _vector_memcpy h out oo inp io n
      = (Function.update h out { h out with
            data := writeBytes (h out).data (oo * eltsize_of (TYPEOF h out))
              (range_bytes h inp io n) }, .ok ()) := by
  have hn : isCInt n := by unfold isCInt at hlo ⊢; omega
  have hw := eltsize_of_le (TYPEOF h out)
  have b1 := bytes_in_bounds h out oo n hf lo hLo ho
  have b2 := bytes_in_bounds h inp io n (by rw [ht]; exact hf) li hLi hi
  rw [ht] at b2
  have key : ∀ (p1 p2 : Except Failure Ptr), p1 = .ok ⟨out, 0⟩ → p2 = .ok ⟨inp, 0⟩ →
      memcpy_tail h (offset_ptrs p1 oo p2 io (eltsize_of (TYPEOF h out))) n
        = (Function.update h out { h out with
            data := writeBytes (h out).data (oo * eltsize_of (TYPEOF h out))
              (range_bytes h inp io n) }, .ok ()) := by
    intro p1 p2 hp1 hp2
    have c1 : (0 : Int) + (oo : Int) * (eltsize_of (TYPEOF h out) : Int)
        = ((oo * eltsize_of (TYPEOF h out) : Nat) : Int) := by push_cast; ring
    have c2 : (0 : Int) + (io : Int) * (eltsize_of (TYPEOF h out) : Int)
        = ((io * eltsize_of (TYPEOF h out) : Nat) : Int) := by push_cast; ring
    simp only [hp1, hp2, offset_ptrs, memcpy_tail, Ptr.add]
    rw [c1, c2, size_t_mul n _ hn hw]
    unfold memcpy
    rw [readBytes_ofNat h inp _ _ b2, readBytes_ofNat h out _ _ b1]
    simp only [Int.toNat_ofNat, overlap, hne, false_and, if_false, range_bytes, ht]
  unfold _vector_memcpy
  rw [not_out_of_bounds h out inp oo io n lo li hLo hLi ho hi]
  simp only
  cases hty : TYPEOF h out <;> rw [hty] at hf ht key <;> simp [fixed_width] at hf <;>
    simp only [eltsize_of] at key ⊢
  · exact key _ _ (by simp [LOGICAL, hty]) (by simp [LOGICAL, ht])
  · exact key _ _ (by simp [INTEGER, hty]) (by simp [INTEGER, ht])
  · exact key _ _ (by simp [REAL, hty]) (by simp [REAL, ht])
  · exact key _ _ (by simp [COMPLEX, hty]) (by simp [COMPLEX, ht])
  · exact key _ _ (by simp [RAW, hty]) (by simp [RAW, ht])

theorem setSlot_same (h : Heap) (x : SEXP) (i : Nat) (v : SEXP) :
    setSlot h x i v x = { h x with elts := (h x).elts.set i v } := by
  unfold setSlot
  simp

theorem setSlot_other (h : Heap) (x y : SEXP) (i : Nat) (v : SEXP) (hy : y ≠ x) :
    setSlot h x i v y = h y := by
  unfold setSlot
  simp [hy]

theorem TYPEOF_setSlot (h : Heap) (x y : SEXP) (i : Nat) (v : SEXP) :
    TYPEOF (setSlot h x i v) y = TYPEOF h y := by
  unfold TYPEOF
  by_cases hy : y = x
  · subst hy
    rw [setSlot_same]
  · rw [setSlot_other h x y i v hy]

/-- The loop of `_vector_memcpy` between two distinct vectors of references
of one type `t`, for accessors `GET`, `SET` that accept the type `t`: it ends
normally, changes only the slots `out_offset + i`, ..., `out_offset + i + k - 1`
of `out`, and these refer to what the slots `in_offset + i`, ... of `in` do. -/
theorem slot_loop_spec (GET : Heap → SEXP → Int → Except Failure SEXP)
    (SET : Heap → SEXP → Int → SEXP → Except Failure Heap) (t : SEXPTYPE)
    (out inp : SEXP) (oo io : Nat) (hne : out ≠ inp)
    (hget : ∀ (g : Heap) (j : Nat) (v : SEXP), TYPEOF g inp = t →
      (g inp).elts[j]? = some v → GET g inp (j : Int) = .ok v)
    (hset : ∀ (g : Heap) (j : Nat) (v : SEXP), TYPEOF g out = t →
      j < (g out).elts.length → SET g out (j : Int) v = .ok (setSlot g out j v)) :
    ∀ (k i : Nat) (h : Heap), TYPEOF h out = t → TYPEOF h inp = t →
      oo + i + k ≤ (h out).elts.length → io + i + k ≤ (h inp).elts.length →
      oo + i + k < 2147483648 → io + i + k < 2147483648 →
      ∃ h1, slot_loop GET SET out oo inp io k i h = (h1, .ok ())
        ∧ (∀ y, y ≠ out → h1 y = h y)
        ∧ (h1 out).type = (h out).type ∧ (h1 out).data = (h out).data
        ∧ (h1 out).attrib = (h out).attrib
        ∧ (h1 out).elts.length = (h out).elts.length
        ∧ ∀ j, (h1 out).elts[j]?
            = if oo + i ≤ j ∧ j < oo + i + k then (h inp).elts[io + (j - oo)]?
              else (h out).elts[j]? := by
  intro k
  induction k with
  | zero =>
    intro i h _ _ _ _ _ _
    refine ⟨h, rfl, fun _ _ => rfl, rfl, rfl, rfl, rfl, ?_⟩
    intro j
    rw [if_neg (by omega)]
  | succ k ih =>
    intro i h hto hti hbo hbi hco hci
    have hlt : io + i < (h inp).elts.length := by omega
    have hv : (h inp).elts[io + i]? = some ((h inp).elts[io + i]) :=
      List.getElem?_eq_getElem hlt
    have e1 : wrapInt ((io : Int) + (i : Int)) = ((io + i : Nat) : Int) := by
      rw [wrapInt_of_isCInt (by unfold isCInt; omega)]
      push_cast
      rfl
    have e2 : wrapInt ((oo : Int) + (i : Int)) = ((oo + i : Nat) : Int) := by
      rw [wrapInt_of_isCInt (by unfold isCInt; omega)]
      push_cast
      rfl
    have e3 : (i : Int) + 1 = ((i + 1 : Nat) : Int) := by push_cast; rfl
    have hg := hget h (io + i) _ hti hv
    have hs := hset h (oo + i) ((h inp).elts[io + i]) hto (by omega)
    obtain ⟨h1, hrun, hframe, hty, hdata, hattr, hlen, helts⟩ :=
      ih (i + 1) (setSlot h out (oo + i) ((h inp).elts[io + i]))
        (by rw [TYPEOF_setSlot]; exact hto) (by rw [TYPEOF_setSlot]; exact hti)
        (by rw [setSlot_same]; simp; omega)
        (by rw [setSlot_other _ _ _ _ _ (Ne.symm hne)]; omega)
        (by omega) (by omega)
    refine ⟨h1, ?_, ?_, ?_, ?_, ?_, ?_, ?_⟩
    · simp only [slot_loop, e1, e2, e3, hg, hs]
      exact hrun
    · intro y hy
      rw [hframe y hy, setSlot_other _ _ _ _ _ hy]
    · rw [hty, setSlot_same]
    · rw [hdata, setSlot_same]
    · rw [hattr, setSlot_same]
    · rw [hlen, setSlot_same]
      simp
    · intro j
      rw [helts j, setSlot_other _ _ _ _ _ (Ne.symm hne), setSlot_same]
      by_cases hj : j = oo + i
      · subst hj
        rw [if_neg (by omega), if_pos (by omega)]
        simp only [List.getElem?_set_self (show oo + i < (h out).elts.length by omega)]
        have hidx : io + (oo + i - oo) = io + i := by omega
        rw [hidx, hv]
      · simp only [List.getElem?_set_ne (Ne.symm hj)]
        by_cases hin : oo + (i + 1) ≤ j ∧ j < oo + (i + 1) + k
        · rw [if_pos hin, if_pos (by omega)]
        · rw [if_neg hin, if_neg (by omega)]

theorem LENGTH_reference (h : Heap) (x : SEXP) (hr : reference_kind (TYPEOF h x) = true)
    (l : Int) (hl : LENGTH h x = .ok l) : l ≤ ((h x).elts.length : Int) := by
  unfold LENGTH at hl
  by_cases hx : x = R_NilValue
  · rw [if_pos hx] at hl
    simp only [Except.ok.injEq] at hl
    omega
  · unfold TYPEOF at hr
    rw [if_neg hx] at hl
    cases hty : (h x).type <;> rw [hty] at hr hl <;> simp [reference_kind] at hr <;>
      simp only [Except.ok.injEq] at hl <;> omega

theorem STRING_ELT_ok (g : Heap) (x : SEXP) (j : Nat) (v : SEXP)
    (ht : TYPEOF g x = .STRSXP) (hv : (g x).elts[j]? = some v) :
    STRING_ELT g x (j : Int) = .ok v := by
  unfold STRING_ELT
  simp [ht, hv]

theorem SET_STRING_ELT_ok (g : Heap) (x : SEXP) (j : Nat) (v : SEXP)
    (ht : TYPEOF g x = .STRSXP) (hj : j < (g x).elts.length) :
    SET_STRING_ELT g x (j : Int) v = .ok (setSlot g x j v) := by
  unfold SET_STRING_ELT
  simp [ht, hj]

theorem VECTOR_ELT_ok (g : Heap) (x : SEXP) (j : Nat) (v : SEXP)
    (ht : TYPEOF g x = .VECSXP) (hv : (g x).elts[j]? = some v) :
    VECTOR_ELT g x (j : Int) = .ok v := by
  unfold VECTOR_ELT
  simp [ht, hv]

theorem SET_VECTOR_ELT_ok (g : Heap) (x : SEXP) (j : Nat) (v : SEXP)
    (ht : TYPEOF g x = .VECSXP) (hj : j < (g x).elts.length) :
    SET_VECTOR_ELT g x (j : Int) v = .ok (setSlot g x j v) := by
  unfold SET_VECTOR_ELT
  simp [ht, hj]

/-- The copy of `_vector_memcpy` between two distinct vectors of one reference
type: it ends normally, changes only the slots of the destination range, and
makes them refer to what the slots of the source range refer to. -/
theorem vector_memcpy_reference (h : Heap) (out inp : SEXP) (oo io n : Nat) (lo li : Int)
    (hne : out ≠ inp)
    (hr : reference_kind (TYPEOF h out) = true) (ht : TYPEOF h inp = TYPEOF h out)
    (hLo : LENGTH h out = .ok lo) (hLi : LENGTH h inp = .ok li)
    (hlo : isCInt lo) (hli : isCInt li)
    (ho : (oo : Int) + n ≤ lo) (hi : (io : Int) + n ≤ li) :
    ∃ h1, _vector_memcpy h out oo inp io n = (h1, .ok ())
      ∧ (∀ y, y ≠ out → h1 y = h y)
      ∧ (h1 out).type = (h out).type ∧ (h1 out).data = (h out).data
      ∧ (h1 out).attrib = (h out).attrib
      ∧ (h1 out).elts.length = (h out).elts.length
      ∧ ∀ j, (h1 out).elts[j]?
          = if oo ≤ j ∧ j < oo + n then (h inp).elts[io + (j - oo)]? else (h out).elts[j]? := by
  have l1 := LENGTH_reference h out hr lo hLo
  have l2 := LENGTH_reference h inp (by rw [ht]; exact hr) li hLi
  unfold isCInt at hlo hli
  unfold _vector_memcpy
  rw [not_out_of_bounds h out inp oo io n lo li hLo hLi ho hi]
  simp only
  cases hty : TYPEOF h out <;> rw [hty] at hr ht <;> simp [reference_kind] at hr
  · have := slot_loop_spec STRING_ELT SET_STRING_ELT .STRSXP out inp oo io hne
      (fun g j v => STRING_ELT_ok g inp j v) (fun g j v => SET_STRING_ELT_ok g out j v)
      n 0 h hty ht (by omega) (by omega) (by omega) (by omega)
    simpa using this
  · have := slot_loop_spec VECTOR_ELT SET_VECTOR_ELT .VECSXP out inp oo io hne
      (fun g j v => VECTOR_ELT_ok g inp j v) (fun g j v => SET_VECTOR_ELT_ok g out j v)
      n 0 h hty ht (by omega) (by omega) (by omega) (by omega)
    simpa using this

/-! ## Claims on `_vector_memcpy` -/

/-- C1: for two distinct arrays `dest` and `src` of one supported element kind
(byte, boolean, integer, floating-point, complex-pair, text-string or
arbitrary-object) and offsets and a count `n` with
`dest_offset + n <= length(dest)` and `src_offset + n <= length(src)`,
`copy_range` (`_vector_memcpy`) succeeds and afterwards, for every `i < n`,
element `dest_offset + i` of `dest` is what element `src_offset + i` of `src`
was before the call: each of its bytes for a fixed-width kind, the very same
referenced object for a reference kind.  The lengths of the two arrays are
the `int` values that `LENGTH` returns for them. -/
theorem C1_copy_range_copies (h : Heap) (dest src : SEXP) (dest_offset src_offset n : Nat)
    (length_dest length_src : Int) (hne : dest ≠ src) (ht : TYPEOF h src = TYPEOF h dest)
    (hk : fixed_width (TYPEOF h dest) = true ∨ reference_kind (TYPEOF h dest) = true)
    (hLd : LENGTH h dest = .ok length_dest) (hLs : LENGTH h src = .ok length_src)
    (hld : isCInt length_dest) (hls : isCInt length_src)
    (hd : (dest_offset : Int) + n ≤ length_dest) (hs : (src_offset : Int) + n ≤ length_src) :
    (_vector_memcpy h dest dest_offset src src_offset n).2 = .ok ()
      ∧ (fixed_width (TYPEOF h dest) = true → ∀ i j, i < n → j < eltsize_of (TYPEOF h dest) →
          ∃ b, (h src).data[(src_offset + i) * eltsize_of (TYPEOF h dest) + j]? = some b
            ∧ ((_vector_memcpy h dest dest_offset src src_offset n).1 dest).data[
                (dest_offset + i) * eltsize_of (TYPEOF h dest) + j]? = some b)
      ∧ (reference_kind (TYPEOF h dest) = true → ∀ i, i < n →
          ∃ v, (h src).elts[src_offset + i]? = some v
            ∧ ((_vector_memcpy h dest dest_offset src src_offset n).1 dest).elts[
                dest_offset + i]? = some v) := by
  have hfr : ∀ t : SEXPTYPE, fixed_width t = true → reference_kind t = true → False := by
    intro t; cases t <;> simp [fixed_width, reference_kind]
  rcases hk with hf | hr
  · rw [vector_memcpy_fixed h dest src dest_offset src_offset n length_dest length_src hne hf ht
      hLd hLs hld hd hs]
    refine ⟨rfl, ?_, fun hr => (hfr _ hf hr).elim⟩
    intro _ i j hi hj
    have b1 := bytes_in_bounds h dest dest_offset n hf length_dest hLd hd
    have b2 := bytes_in_bounds h src src_offset n (by rw [ht]; exact hf) length_src hLs hs
    rw [ht] at b2
    have hij : i * eltsize_of (TYPEOF h dest) + j < n * eltsize_of (TYPEOF h dest) := by
      have : (i + 1) * eltsize_of (TYPEOF h dest) ≤ n * eltsize_of (TYPEOF h dest) :=
        Nat.mul_le_mul_right _ hi
      rw [Nat.add_mul, Nat.one_mul] at this
      omega
    have hsl : (range_bytes h src src_offset n).length = n * eltsize_of (TYPEOF h dest) := by
      unfold range_bytes
      rw [ht, slice_length _ _ _ b2]
    have hlt : (src_offset + i) * eltsize_of (TYPEOF h dest) + j < (h src).data.length := by
      rw [Nat.add_mul]
      omega
    refine ⟨(h src).data[(src_offset + i) * eltsize_of (TYPEOF h dest) + j],
      List.getElem?_eq_getElem hlt, ?_⟩
    simp only [Function.update_same]
    rw [writeBytes_getElem? _ _ _ _ (by rw [hsl]; exact b1), hsl,
      if_pos (by rw [Nat.add_mul]; omega)]
    unfold range_bytes
    rw [ht, getElem?_slice _ _ _ _ (by rw [Nat.add_mul]; omega), ← List.getElem?_eq_getElem hlt]
    congr 1
    rw [Nat.add_mul, Nat.add_mul]
    omega
  · obtain ⟨h1, hrun, _, _, _, _, _, helts⟩ :=
      vector_memcpy_reference h dest src dest_offset src_offset n length_dest length_src hne hr
        ht hLd hLs hld hls hd hs
    rw [hrun]
    refine ⟨rfl, fun hf => (hfr _ hf hr).elim, ?_⟩
    intro _ i hi
    have l2 := LENGTH_reference h src (by rw [ht]; exact hr) length_src hLs
    have hlt : src_offset + i < (h src).elts.length := by omega
    refine ⟨(h src).elts[src_offset + i], List.getElem?_eq_getElem hlt, ?_⟩
    simp only
    have hidx : src_offset + (dest_offset + i - dest_offset) = src_offset + i := by omega
    rw [helts, if_pos (by omega), hidx, List.getElem?_eq_getElem hlt]

/-- Witness of C1: in the example heap, two bytes of the raw vector 4 copied
to the start of the raw vector 3, and two slots of the character vector 6
copied to the character vector 5. -/
theorem C1_copy_range_copies_witness :
    ((_vector_memcpy exampleHeap 3 (0 : Nat) 4 (2 : Nat) (2 : Nat)).2 = .ok ()
      ∧ ∀ i j, i < 2 → j < eltsize_of (TYPEOF exampleHeap 3) →
          ∃ b, (exampleHeap 4).data[(2 + i) * eltsize_of (TYPEOF exampleHeap 3) + j]? = some b
            ∧ ((_vector_memcpy exampleHeap 3 (0 : Nat) 4 (2 : Nat) (2 : Nat)).1 3).data[
                (0 + i) * eltsize_of (TYPEOF exampleHeap 3) + j]? = some b)
      ∧ ((_vector_memcpy exampleHeap 5 (0 : Nat) 6 (1 : Nat) (2 : Nat)).2 = .ok ()
      ∧ ∀ i, i < 2 →
          ∃ v, (exampleHeap 6).elts[1 + i]? = some v
            ∧ ((_vector_memcpy exampleHeap 5 (0 : Nat) 6 (1 : Nat) (2 : Nat)).1 5).elts[
                0 + i]? = some v) :=
  ⟨⟨(C1_copy_range_copies exampleHeap 3 4 0 2 2 5 5 (by decide) (by decide) (by decide)
      (by decide) (by decide) (by decide) (by decide) (by decide) (by decide)).1,
    (C1_copy_range_copies exampleHeap 3 4 0 2 2 5 5 (by decide) (by decide) (by decide)
      (by decide) (by decide) (by decide) (by decide) (by decide) (by decide)).2.1 (by decide)⟩,
   ⟨(C1_copy_range_copies exampleHeap 5 6 0 1 2 2 3 (by decide) (by decide) (by decide)
      (by decide) (by decide) (by decide) (by decide) (by decide) (by decide)).1,
    (C1_copy_range_copies exampleHeap 5 6 0 1 2 2 3 (by decide) (by decide) (by decide)
      (by decide) (by decide) (by decide) (by decide) (by decide) (by decide)).2.2 (by decide)⟩⟩

/-! ## Failures of `_vector_memcpy` -/

theorem offset_ptrs_error (p1 p2 : Except Failure Ptr) (o1 o2 : Int) (w : Nat) (e : Failure)
    (h1 : ∀ e1, p1 = .error e1 → e1 = .HostError) (h2 : ∀ e2, p2 = .error e2 → e2 = .HostError)
    (he : offset_ptrs p1 o1 p2 o2 w = .error e) : e = .HostError := by
  unfold offset_ptrs at he
  cases p1 with
  | error e1 =>
    simp only [Except.error.injEq] at he
    rw [← he]
    exact h1 e1 rfl
  | ok q1 =>
    cases p2 with
    | error e2 =>
      simp only [Except.error.injEq] at he
      rw [← he]
      exact h2 e2 rfl
    | ok q2 => simp at he

theorem memcpy_error (h : Heap) (dest src : Ptr) (n : Nat) (e : Failure)
    (he : memcpy h dest src n = .error e) : e = .Undefined := by
  unfold memcpy at he
  split at he
  · split at he
    · simp only [Except.error.injEq] at he
      exact he.symm
    · simp at he
  · simp only [Except.error.injEq] at he
    exact he.symm

/-- The fixed-width tail of `_vector_memcpy` fails only inside the host
accessors or with undefined behaviour, and then it has written nothing. -/
theorem memcpy_tail_error (h : Heap) (ptrs : Except Failure (Ptr × Ptr × Nat)) (n : Int)
    (e : Failure) (hp : ∀ e1, ptrs = .error e1 → e1 = .HostError)
    (he : (memcpy_tail h ptrs n).2 = .error e) : e = .HostError ∨ e = .Undefined := by
  unfold memcpy_tail at he
  cases ptrs with
  | error e1 =>
    simp only [Except.error.injEq] at he
    rw [← he]
    exact Or.inl (hp e1 rfl)
  | ok t =>
    obtain ⟨d, s, w⟩ := t
    simp only at he
    cases hm : memcpy h d s (size_t (n * w)) with
    | error e2 =>
      rw [hm] at he
      simp only [Except.error.injEq] at he
      rw [← he]
      exact Or.inr (memcpy_error h d s _ e2 hm)
    | ok h1 =>
      rw [hm] at he
      simp at he

/-- The loop of `_vector_memcpy` fails only with the failures of its accessors. -/
theorem slot_loop_error (GET : Heap → SEXP → Int → Except Failure SEXP)
    (SET : Heap → SEXP → Int → SEXP → Except Failure Heap)
    (out : SEXP) (oo : Int) (inp : SEXP) (io : Int)
    (hget : ∀ g x i e, GET g x i = .error e → e = .HostError ∨ e = .Undefined)
    (hset : ∀ g x i v e, SET g x i v = .error e → e = .HostError ∨ e = .Undefined) :
    ∀ (k : Nat) (i : Int) (h : Heap) (e : Failure),
      (slot_loop GET SET out oo inp io k i h).2 = .error e → e = .HostError ∨ e = .Undefined := by
  intro k
  induction k with
  | zero =>
    intro i h e he
    simp [slot_loop] at he
  | succ k ih =>
    intro i h e he
    unfold slot_loop at he
    cases hg : GET h inp (wrapInt (io + i)) with
    | error e1 =>
      rw [hg] at he
      simp only [Except.error.injEq] at he
      rw [← he]
      exact hget _ _ _ _ hg
    | ok v =>
      rw [hg] at he
      simp only at he
      cases hs : SET h out (wrapInt (oo + i)) v with
      | error e2 =>
        rw [hs] at he
        simp only [Except.error.injEq] at he
        rw [← he]
        exact hset _ _ _ _ _ hs
      | ok h1 =>
        rw [hs] at he
        exact ih _ _ _ he

theorem RAW_error (h : Heap) (x : SEXP) (e : Failure) (he : RAW h x = .error e) :
    e = .HostError := by
  unfold RAW at he
  split at he <;> simp_all

theorem INTEGER_error (h : Heap) (x : SEXP) (e : Failure) (he : INTEGER h x = .error e) :
    e = .HostError := by
  unfold INTEGER at he
  split at he <;> simp_all

theorem LOGICAL_error (h : Heap) (x : SEXP) (e : Failure) (he : LOGICAL h x = .error e) :
    e = .HostError := by
  unfold LOGICAL at he
  split at he <;> simp_all

theorem REAL_error (h : Heap) (x : SEXP) (e : Failure) (he : REAL h x = .error e) :
    e = .HostError := by
  unfold REAL at he
  split at he <;> simp_all

theorem COMPLEX_error (h : Heap) (x : SEXP) (e : Failure) (he : COMPLEX h x = .error e) :
    e = .HostError := by
  unfold COMPLEX at he
  split at he <;> simp_all

theorem STRING_ELT_error (g : Heap) (x : SEXP) (i : Int) (e : Failure)
    (he : STRING_ELT g x i = .error e) : e = .HostError ∨ e = .Undefined := by
  unfold STRING_ELT at he
  split at he
  · simp_all
  · split at he
    · split at he <;> simp_all
    · simp_all

theorem VECTOR_ELT_error (g : Heap) (x : SEXP) (i : Int) (e : Failure)
    (he : VECTOR_ELT g x i = .error e) : e = .HostError ∨ e = .Undefined := by
  unfold VECTOR_ELT at he
  split at he
  · simp_all
  · split at he
    · split at he <;> simp_all
    · simp_all

theorem SET_STRING_ELT_error (g : Heap) (x : SEXP) (i : Int) (v : SEXP) (e : Failure)
    (he : SET_STRING_ELT g x i v = .error e) : e = .HostError ∨ e = .Undefined := by
  unfold SET_STRING_ELT at he
  split at he
  · simp_all
  · split at he <;> simp_all

theorem SET_VECTOR_ELT_error (g : Heap) (x : SEXP) (i : Int) (v : SEXP) (e : Failure)
    (he : SET_VECTOR_ELT g x i v = .error e) : e = .HostError ∨ e = .Undefined := by
  unfold SET_VECTOR_ELT at he
  split at he
  · simp_all
  · split at he <;> simp_all

theorem LENGTH_error (h : Heap) (x : SEXP) (e : Failure) (he : LENGTH h x = .error e) :
    e = .HostError := by
  unfold LENGTH at he
  split at he
  · simp at he
  · split at he <;> simp_all

/-- The bounds check ends the call with an error of its own only inside `LENGTH`. -/
theorem out_of_bounds_error (h : Heap) (x1 : SEXP) (o1 : Int) (x2 : SEXP) (o2 n : Int)
    (e : Failure) (he : out_of_bounds h x1 o1 x2 o2 n = .error e) : e = .HostError := by
  unfold out_of_bounds at he
  split at he
  · simp at he
  · cases h1 : LENGTH h x1 with
    | error e1 =>
      rw [h1] at he
      simp only [Except.error.injEq] at he
      rw [← he]
      exact LENGTH_error h x1 e1 h1
    | ok l1 =>
      rw [h1] at he
      simp only at he
      split at he
      · simp at he
      · split at he
        · simp at he
        · cases h2 : LENGTH h x2 with
          | error e2 =>
            rw [h2] at he
            simp only [Except.error.injEq] at he
            rw [← he]
            exact LENGTH_error h x2 e2 h2
          | ok l2 =>
            rw [h2] at he
            simp only at he
            split at he <;> simp at he

/-- How `_vector_memcpy` can fail: with `OutOfBounds` when the bounds check
rejects the call, with `UnsupportedType` of the type of `out` when the check
accepts it and that type is none of the seven of the switch, and otherwise
only inside the host (in `LENGTH` during the bounds check, or in an accessor)
or the C library; in the first two cases, and when `LENGTH` fails, no slot and
no byte has been written. -/
theorem vector_memcpy_failure (h : Heap) (out : SEXP) (oo : Int) (inp : SEXP) (io n : Int)
    (e : Failure) (he : (_vector_memcpy h out oo inp io n).2 = .error e) :
    (e = .OutOfBounds ∧ out_of_bounds h out oo inp io n = .ok true
        ∧ (_vector_memcpy h out oo inp io n).1 = h)
      ∨ (e = .UnsupportedType (TYPEOF h out) ∧ out_of_bounds h out oo inp io n = .ok false
        ∧ supported_kind (TYPEOF h out) = false ∧ (_vector_memcpy h out oo inp io n).1 = h)
      ∨ ((e = .HostError ∨ e = .Undefined) ∧ out_of_bounds h out oo inp io n = .ok false
        ∧ supported_kind (TYPEOF h out) = true)
      ∨ (e = .HostError ∧ out_of_bounds h out oo inp io n = .error .HostError
        ∧ (_vector_memcpy h out oo inp io n).1 = h) := by
  generalize hR : _vector_memcpy h out oo inp io n = R at he ⊢
  unfold _vector_memcpy at hR
  cases hb : out_of_bounds h out oo inp io n with
  | error e1 =>
    rw [hb] at hR
    simp only at hR
    subst hR
    simp only [Except.error.injEq] at he
    have h1 := out_of_bounds_error h out oo inp io n e1 hb
    subst h1
    exact Or.inr (Or.inr (Or.inr ⟨he.symm, rfl, rfl⟩))
  | ok b =>
    cases b with
    | true =>
      rw [hb] at hR
      simp only at hR
      subst hR
      simp only [Except.error.injEq] at he
      exact Or.inl ⟨he.symm, rfl, rfl⟩
    | false =>
      rw [hb] at hR
      simp only at hR
      have tail : ∀ (p1 p2 : Except Failure Ptr) (w : Nat),
          (∀ e1, p1 = .error e1 → e1 = .HostError) → (∀ e2, p2 = .error e2 → e2 = .HostError) →
          (memcpy_tail h (offset_ptrs p1 oo p2 io w) n).2 = .error e →
          e = .HostError ∨ e = .Undefined := fun p1 p2 w h1 h2 hm =>
        memcpy_tail_error h _ n e (fun e1 => offset_ptrs_error p1 p2 oo io w e1 h1 h2) hm
      cases hty : TYPEOF h out <;> rw [hty] at hR <;> simp only at hR <;> subst hR
      all_goals first
        | (simp only [Except.error.injEq] at he
           exact Or.inr (Or.inl ⟨he.symm, rfl, rfl, rfl⟩))
        | skip
      · exact Or.inr (Or.inr (Or.inl
          ⟨tail (LOGICAL h out) (LOGICAL h inp) 4 (LOGICAL_error h out) (LOGICAL_error h inp) he,
            rfl, rfl⟩))
      · exact Or.inr (Or.inr (Or.inl
          ⟨tail (INTEGER h out) (INTEGER h inp) 4 (INTEGER_error h out) (INTEGER_error h inp) he,
            rfl, rfl⟩))
      · exact Or.inr (Or.inr (Or.inl
          ⟨tail (REAL h out) (REAL h inp) 8 (REAL_error h out) (REAL_error h inp) he,
            rfl, rfl⟩))
      · exact Or.inr (Or.inr (Or.inl
          ⟨tail (COMPLEX h out) (COMPLEX h inp) 16 (COMPLEX_error h out) (COMPLEX_error h inp) he,
            rfl, rfl⟩))
      · exact Or.inr (Or.inr (Or.inl
          ⟨slot_loop_error STRING_ELT SET_STRING_ELT out oo inp io STRING_ELT_error
            SET_STRING_ELT_error _ _ _ e he, rfl, rfl⟩))
      · exact Or.inr (Or.inr (Or.inl
          ⟨slot_loop_error VECTOR_ELT SET_VECTOR_ELT out oo inp io VECTOR_ELT_error
            SET_VECTOR_ELT_error _ _ _ e he, rfl, rfl⟩))
      · exact Or.inr (Or.inr (Or.inl
          ⟨tail (RAW h out) (RAW h inp) 1 (RAW_error h out) (RAW_error h inp) he,
            rfl, rfl⟩))

/-- A range that leaves a vector is rejected by the bounds check when the sums
`offset + nelt` do not overflow an `int`. -/
theorem out_of_bounds_of_range (h : Heap) (x1 : SEXP) (o1 : Int) (x2 : SEXP) (o2 n : Int)
    (l1 l2 : Int) (hl1 : LENGTH h x1 = .ok l1) (hl2 : LENGTH h x2 = .ok l2)
    (hs1 : isCInt (o1 + n)) (hs2 : isCInt (o2 + n))
    (hv : o1 < 0 ∨ o1 + n > l1 ∨ o2 < 0 ∨ o2 + n > l2) :
    out_of_bounds h x1 o1 x2 o2 n = .ok true := by
  unfold out_of_bounds
  rw [hl1, hl2, wrapInt_of_isCInt hs1, wrapInt_of_isCInt hs2]
  simp only
  split
  · rfl
  · split
    · rfl
    · split
      · rfl
      · rw [if_pos (by omega)]

/-- A call the bounds check rejects ends with `OutOfBounds`, in both functions,
and `_vector_memcpy` has then written nothing. -/
theorem out_of_bounds_fails (h : Heap) (x1 : SEXP) (o1 : Int) (x2 : SEXP) (o2 n : Int)
    (hb : out_of_bounds h x1 o1 x2 o2 n = .ok true) :
    _vector_memcmp h x1 o1 x2 o2 n = .error .OutOfBounds
      ∧ _vector_memcpy h x1 o1 x2 o2 n = (h, .error .OutOfBounds) := by
  unfold _vector_memcmp _vector_memcpy
  rw [hb]
  exact ⟨rfl, rfl⟩

/-- C5, at an input where it fails: the offset 2147483647 and the count 1 on
the raw vectors 3 and 4 (of length 5) of the example heap.  The range leaves
the first vector (`offset + n > length`), but the `int` sum
`x1_offset + nelt` wraps to a negative value, the bounds check accepts the
call, and neither `_vector_memcmp` nor `_vector_memcpy` ends with the
`OutOfBounds` error: both go on to access memory outside the vector. -/
theorem C5_overflowing_range_passes_bounds_check :
    LENGTH exampleHeap 3 = .ok 5 ∧ (2147483647 : Int) + 1 > 5
      ∧ out_of_bounds exampleHeap 3 2147483647 4 0 1 = .ok false
      ∧ _vector_memcmp exampleHeap 3 2147483647 4 0 1 = .error .Undefined
      ∧ (_vector_memcpy exampleHeap 3 2147483647 4 0 1).2 = .error .Undefined := by
  decide

/-- C6, refuted: `copy_range` (`_vector_memcpy`) does not fail with
`UnsupportedType` when the kinds of `dest` and `src` differ.  In the example
heap, with in-bounds ranges, copying no slot from the list 7 into the
character vector 5 and copying an element of the logical vector 17 into the
integer vector 15 both succeed (and the latter writes the bytes), and copying
an element of the double vector 16 into the integer vector 15 fails inside the
host accessor, not with `UnsupportedType`. -/
theorem C6_kind_mismatch_not_detected :
    (TYPEOF exampleHeap 5 ≠ TYPEOF exampleHeap 7
        ∧ LENGTH exampleHeap 5 = .ok 2 ∧ LENGTH exampleHeap 7 = .ok 2 ∧ (0 : Int) + 0 ≤ 2
        ∧ (_vector_memcpy exampleHeap 5 0 7 0 0).2 = .ok ())
      ∧ (TYPEOF exampleHeap 15 ≠ TYPEOF exampleHeap 17
        ∧ LENGTH exampleHeap 15 = .ok 3 ∧ LENGTH exampleHeap 17 = .ok 2 ∧ (0 : Int) + 1 ≤ 2
        ∧ (_vector_memcpy exampleHeap 15 0 17 0 1).2 = .ok ()
        ∧ ((_vector_memcpy exampleHeap 15 0 17 0 1).1 15).data
            = [1, 0, 0, 0, 8, 0, 0, 0, 9, 0, 0, 0])
      ∧ (TYPEOF exampleHeap 15 ≠ TYPEOF exampleHeap 16
        ∧ LENGTH exampleHeap 15 = .ok 3 ∧ LENGTH exampleHeap 16 = .ok 3 ∧ (0 : Int) + 1 ≤ 3
        ∧ (_vector_memcpy exampleHeap 15 0 16 0 1).2 = .error .HostError) := by
  decide

/-- C6 as amended: on in-bounds ranges of two objects that have a length (the
values `LENGTH` returns for them), `copy_range` (`_vector_memcpy`) fails with
`UnsupportedType` exactly on the kind of `dest`: when that kind is none of the
seven supported kinds the call fails with `UnsupportedType` (of that kind) and
writes nothing, whatever the kind of `src`; when it is one of the seven the
call never fails with `UnsupportedType`, whatever the kind of `src` (the kinds
of `dest` and `src` are not compared). -/
theorem C6_unsupported_type_from_dest_kind_only (h : Heap) (dest src : SEXP)
    (dest_offset src_offset n : Nat) (length_dest length_src : Int)
    (hLd : LENGTH h dest = .ok length_dest) (hLs : LENGTH h src = .ok length_src)
    (hd : (dest_offset : Int) + n ≤ length_dest) (hs : (src_offset : Int) + n ≤ length_src) :
    (supported_kind (TYPEOF h dest) = false →
        _vector_memcpy h dest dest_offset src src_offset n
          = (h, .error (.UnsupportedType (TYPEOF h dest))))
      ∧ (supported_kind (TYPEOF h dest) = true →
        ∀ t, (_vector_memcpy h dest dest_offset src src_offset n).2
          ≠ .error (.UnsupportedType t)) := by
  have hb := not_out_of_bounds h dest src dest_offset src_offset n length_dest length_src
    hLd hLs hd hs
  constructor
  · intro hk
    unfold _vector_memcpy
    rw [hb]
    simp only
    cases hty : TYPEOF h dest <;> rw [hty] at hk <;>
      simp [supported_kind, fixed_width, reference_kind] at hk ⊢
  · intro hk t he
    rcases vector_memcpy_failure h dest dest_offset src src_offset n _ he with
      ⟨h1, _⟩ | ⟨_, _, h2, _⟩ | ⟨h3 | h3, _⟩ | ⟨h4, _⟩
    · simp at h1
    · rw [hk] at h2
      simp at h2
    · simp at h3
    · simp at h3
    · simp at h4

/-- Witness of C6 as amended: in the example heap, the `CHARSXP` string 10 (of
length 1) as `dest` is refused, and the integer vector 15 as `dest` with the
double vector 16 as `src` does not fail with `UnsupportedType`. -/
theorem C6_unsupported_type_from_dest_kind_only_witness :
    _vector_memcpy exampleHeap 10 (0 : Nat) 3 (0 : Nat) (1 : Nat)
        = (exampleHeap, .error (.UnsupportedType (TYPEOF exampleHeap 10)))
      ∧ (_vector_memcpy exampleHeap 15 (0 : Nat) 16 (0 : Nat) (1 : Nat)).2
        ≠ .error (.UnsupportedType .INTSXP) :=
  ⟨(C6_unsupported_type_from_dest_kind_only exampleHeap 10 3 0 0 1 1 5 (by decide) (by decide)
      (by decide) (by decide)).1 (by decide),
   (C6_unsupported_type_from_dest_kind_only exampleHeap 15 16 0 0 1 3 3 (by decide) (by decide)
      (by decide) (by decide)).2 (by decide) .INTSXP⟩

/-- C8: whenever `copy_range` (`_vector_memcpy`) fails with `OutOfBounds` or
with `UnsupportedType`, the heap, and so the destination and the source array,
is exactly as it was before the call. -/
theorem C8_failed_copy_writes_nothing (h : Heap) (dest : SEXP) (dest_offset : Int) (src : SEXP)
    (src_offset n : Int) (e : Failure)
    (he : (_vector_memcpy h dest dest_offset src src_offset n).2 = .error e)
    (hk : e = .OutOfBounds ∨ ∃ t, e = .UnsupportedType t) :
    (_vector_memcpy h dest dest_offset src src_offset n).1 = h := by
  rcases vector_memcpy_failure h dest dest_offset src src_offset n e he with
    ⟨_, _, h1⟩ | ⟨_, _, _, h2⟩ | ⟨h3, _⟩ | ⟨_, _, h4⟩
  · exact h1
  · exact h2
  · rcases hk with hk | ⟨t, hk⟩ <;> rcases h3 with h3 | h3 <;> rw [hk] at h3 <;> simp at h3
  · exact h4

/-- Witness of C8: six elements asked of the raw vectors 3 and 4 of the
example heap, which have five. -/
theorem C8_failed_copy_writes_nothing_witness :
    (_vector_memcpy exampleHeap 3 0 4 0 6).1 = exampleHeap :=
  C8_failed_copy_writes_nothing exampleHeap 3 0 4 0 6 .OutOfBounds (by decide) (Or.inl rfl)

/-! ## Claims on `get_NROW` -/

/-- An object `IS_VECTOR` accepts has a length: `LENGTH` returns a number. -/
theorem LENGTH_of_IS_VECTOR (h : Heap) (x : SEXP) (hv : IS_VECTOR h x = true) :
    ∃ l : Nat, LENGTH h x = .ok (l : Int) := by
  unfold LENGTH
  unfold IS_VECTOR TYPEOF at hv
  by_cases h0 : x = R_NilValue
  · exact ⟨0, by rw [if_pos h0]; rfl⟩
  · rw [if_neg h0]
    cases hty : (h x).type <;> rw [hty] at hv <;> simp only at hv <;>
      first
        | exact absurd hv Bool.false_ne_true
        | exact ⟨_, rfl⟩

/-- C9: for every array-like entry that carries a row-label array (a
`row.names` attribute), `infer_row_count` (`get_NROW`) returns the length of
that row-label array, whatever the `dim` attribute and the length of the
entry are: the call ends as `LENGTH` of the attribute does, and when the
attribute is a vector that is a number, which `get_NROW` returns. -/
theorem C9_row_labels_give_row_count (h : Heap) (x : SEXP) (hx : x ≠ R_NilValue)
    (hv : IS_VECTOR h x = true) (hr : getAttrib h x R_RowNamesSymbol ≠ R_NilValue) :
    get_NROW h x = LENGTH h (getAttrib h x R_RowNamesSymbol)
      ∧ (IS_VECTOR h (getAttrib h x R_RowNamesSymbol) = true →
          ∃ l : Nat, LENGTH h (getAttrib h x R_RowNamesSymbol) = .ok (l : Int)
            ∧ get_NROW h x = .ok (l : Int)) := by
  have key : get_NROW h x = LENGTH h (getAttrib h x R_RowNamesSymbol) := by
    unfold get_NROW
    simp [hx, hv, hr]
  refine ⟨key, fun hrv => ?_⟩
  obtain ⟨l, hl⟩ := LENGTH_of_IS_VECTOR h _ hrv
  exact ⟨l, hl, by rw [key, hl]⟩

/-- Witness of C9: the data frame 12 of the example heap, with three row
labels, two columns and a `dim` attribute, has three rows. -/
theorem C9_row_labels_give_row_count_witness :
    get_NROW exampleHeap 12 = LENGTH exampleHeap (getAttrib exampleHeap 12 R_RowNamesSymbol)
      ∧ (∃ l : Nat, LENGTH exampleHeap (getAttrib exampleHeap 12 R_RowNamesSymbol) = .ok (l : Int)
          ∧ get_NROW exampleHeap 12 = .ok (l : Int))
      ∧ LENGTH exampleHeap (getAttrib exampleHeap 12 R_RowNamesSymbol) = .ok 3
      ∧ get_NROW exampleHeap 12 = .ok 3
      ∧ LENGTH exampleHeap 12 = .ok 2 :=
  ⟨(C9_row_labels_give_row_count exampleHeap 12 (by decide) (by decide) (by decide)).1,
    (C9_row_labels_give_row_count exampleHeap 12 (by decide) (by decide) (by decide)).2
      (by decide),
    by decide, by decide, by decide⟩

/-- C10: for every array-like, non-null entry with no row-label array whose
dimension descriptor (the integer vector under `dim`) has at least one
element, `infer_row_count` (`get_NROW`) returns the first element of the
dimension descriptor, the 32-bit integer in its first four bytes, not the
length of the entry. -/
theorem C10_leading_dimension_gives_row_count (h : Heap) (x : SEXP) (hx : x ≠ R_NilValue)
    (hv : IS_VECTOR h x = true) (hr : getAttrib h x R_RowNamesSymbol = R_NilValue)
    (hd : GET_DIM h x ≠ R_NilValue) (hi : TYPEOF h (GET_DIM h x) = .INTSXP)
    (length_dim : Int) (hL : LENGTH h (GET_DIM h x) = .ok length_dim) (hl : 1 ≤ length_dim) :
    ∃ b0 b1 b2 b3 rest, (h (GET_DIM h x)).data = b0 :: b1 :: b2 :: b3 :: rest
      ∧ get_NROW h x = .ok (int_of_bytes b0 b1 b2 b3) := by
  have hlen : 4 ≤ (h (GET_DIM h x)).data.length := by
    unfold LENGTH at hL
    unfold TYPEOF at hi
    rw [if_neg hd, hi] at hL
    simp only [Except.ok.injEq] at hL
    omega
  match hdat : (h (GET_DIM h x)).data, hlen with
  | b0 :: b1 :: b2 :: b3 :: rest, _ =>
    refine ⟨b0, b1, b2, b3, rest, rfl, ?_⟩
    have hl0 : length_dim ≠ 0 := by omega
    unfold get_NROW
    simp [hx, hv, hr, hd, hL, hl0, INTEGER, hi, load_int, Ptr.add, readBytes, hdat]

/-- Witness of C10: the integer matrix 9 of the example heap, of length 6 and
dimensions 2, 3, has two rows. -/
theorem C10_leading_dimension_gives_row_count_witness :
    (∃ b0 b1 b2 b3 rest, (exampleHeap (GET_DIM exampleHeap 9)).data = b0 :: b1 :: b2 :: b3 :: rest
      ∧ get_NROW exampleHeap 9 = .ok (int_of_bytes b0 b1 b2 b3))
      ∧ get_NROW exampleHeap 9 = .ok 2 ∧ LENGTH exampleHeap 9 = .ok 6 :=
  ⟨C10_leading_dimension_gives_row_count exampleHeap 9 (by decide) (by decide) (by decide)
    (by decide) (by decide) 2 (by decide) (by decide), by decide, by decide⟩

/-- C11: for every array-like, non-null entry with no row-label array and with
either no dimension descriptor or a dimension descriptor of length 0,
`infer_row_count` (`get_NROW`) returns the length of the entry (which, the
entry being array-like, `LENGTH` does return). -/
theorem C11_plain_length_gives_row_count (h : Heap) (x : SEXP) (hx : x ≠ R_NilValue)
    (hv : IS_VECTOR h x = true) (hr : getAttrib h x R_RowNamesSymbol = R_NilValue)
    (hd : GET_DIM h x = R_NilValue ∨ LENGTH h (GET_DIM h x) = .ok 0) :
    ∃ l : Nat, LENGTH h x = .ok (l : Int) ∧ get_NROW h x = .ok (l : Int) := by
  obtain ⟨l, hl⟩ := LENGTH_of_IS_VECTOR h x hv
  refine ⟨l, hl, ?_⟩
  unfold get_NROW
  rcases hd with hd | hd
  · simp [hx, hv, hr, hd, hl]
  · by_cases hn : GET_DIM h x = R_NilValue
    · simp [hx, hv, hr, hn, hl]
    · simp [hx, hv, hr, hn, hd, hl]

/-- Witness of C11: the raw vector 3 of the first example heap, of length 5 and
without attributes, and the double vector 13 of the second, of length 3 and
with a `dim` attribute of length 0. -/
theorem C11_plain_length_gives_row_count_witness :
    ((∃ l : Nat, LENGTH exampleHeap 3 = .ok (l : Int) ∧ get_NROW exampleHeap 3 = .ok (l : Int))
        ∧ LENGTH exampleHeap 3 = .ok 5 ∧ get_NROW exampleHeap 3 = .ok 5)
      ∧ ((∃ l : Nat, LENGTH collectionHeap 13 = .ok (l : Int)
          ∧ get_NROW collectionHeap 13 = .ok (l : Int))
        ∧ LENGTH collectionHeap 13 = .ok 3 ∧ get_NROW collectionHeap 13 = .ok 3) :=
  ⟨⟨C11_plain_length_gives_row_count exampleHeap 3 (by decide) (by decide) (by decide)
      (by decide), by decide, by decide⟩,
   ⟨C11_plain_length_gives_row_count collectionHeap 13 (by decide) (by decide) (by decide)
      (by decide), by decide, by decide⟩⟩

/-- C12: `infer_row_count` (`get_NROW`) of the null entry is 0, in every heap:
whatever type tag and attributes are found at the address of `NULL`, the null
test comes first. -/
theorem C12_null_gives_zero (h : Heap) : get_NROW h R_NilValue = .ok 0 := by
  unfold get_NROW
  simp


/-! ## Lemmas on `get_NROW` and `sapply_NROW` -/

/-- On a null entry, and on an array-like entry whose `row.names` attribute is
a vector and whose `dim` attribute is an integer vector, `get_NROW` returns a
value. -/
theorem get_NROW_ok (h : Heap) (v : SEXP) (hv : v = R_NilValue ∨ IS_VECTOR h v = true)
    (hd : IS_VECTOR h v = true → dim_is_integer h v)
    (hrn : IS_VECTOR h v = true → row_names_is_vector h v) : ∃ r, get_NROW h v = .ok r := by
  unfold get_NROW
  by_cases h0 : v = R_NilValue
  · exact ⟨0, by simp [h0]⟩
  · have hvec : IS_VECTOR h v = true := by
      rcases hv with hv | hv
      · exact absurd hv h0
      · exact hv
    rw [if_neg h0]
    simp only [hvec, Bool.not_true, Bool.false_eq_true, if_false]
    obtain ⟨lv, hlv⟩ := LENGTH_of_IS_VECTOR h v hvec
    by_cases hr : getAttrib h v R_RowNamesSymbol ≠ R_NilValue
    · rw [if_pos hr]
      rcases hrn hvec with h1 | h1
      · exact absurd h1 hr
      · obtain ⟨l, hl⟩ := LENGTH_of_IS_VECTOR h _ h1
        exact ⟨l, hl⟩
    · rw [if_neg hr]
      by_cases hnil : GET_DIM h v = R_NilValue
      · exact ⟨lv, by rw [if_pos hnil, hlv]⟩
      · rw [if_neg hnil]
        have hi : TYPEOF h (GET_DIM h v) = .INTSXP := by
          rcases hd hvec with hd | hd
          · exact absurd hd hnil
          · exact hd
        have hL : LENGTH h (GET_DIM h v) = .ok (((h (GET_DIM h v)).data.length / 4 : Nat) : Int) := by
          unfold LENGTH
          unfold TYPEOF at hi
          rw [if_neg hnil, hi]
        rw [hL]
        simp only
        by_cases hlen0 : (((h (GET_DIM h v)).data.length / 4 : Nat) : Int) = 0
        · exact ⟨lv, by rw [if_pos hlen0, hlv]⟩
        · rw [if_neg hlen0]
          have hlen : 4 ≤ (h (GET_DIM h v)).data.length := by omega
          match hdat : (h (GET_DIM h v)).data, hlen with
          | b0 :: b1 :: b2 :: b3 :: rest, _ =>
            exact ⟨int_of_bytes b0 b1 b2 b3, by
              simp [INTEGER, hi, load_int, Ptr.add, readBytes, hdat]⟩

theorem INTEGER_ok_ne (h : Heap) (x : SEXP) (e : Failure) (he : INTEGER h x = .error e) :
    e ≠ .NotAVector := by
  rw [INTEGER_error h x e he]
  simp

theorem load_int_error (h : Heap) (p : Ptr) (i : Int) (e : Failure)
    (he : load_int h p i = .error e) : e = .Undefined := by
  unfold load_int at he
  split at he
  · simp at he
  · simp only [Except.error.injEq] at he
    exact he.symm

theorem LENGTH_ne_NotAVector (h : Heap) (x : SEXP) : LENGTH h x ≠ .error .NotAVector := by
  intro hc
  have := LENGTH_error h x _ hc
  simp at this

/-- On a null or array-like entry `get_NROW` does not take its error branch
`get_NROW() defined only on a vector (or NULL)`. -/
theorem get_NROW_ne_NotAVector (h : Heap) (v : SEXP)
    (hv : ¬ (v ≠ R_NilValue ∧ IS_VECTOR h v = false)) :
    get_NROW h v ≠ .error .NotAVector := by
  unfold get_NROW
  by_cases h0 : v = R_NilValue
  · simp [h0]
  · have hvec : IS_VECTOR h v = true := by
      cases hb : IS_VECTOR h v
      · exact absurd ⟨h0, hb⟩ hv
      · rfl
    rw [if_neg h0]
    simp only [hvec, Bool.not_true, Bool.false_eq_true, if_false]
    split
    · exact LENGTH_ne_NotAVector h _
    · split
      · exact LENGTH_ne_NotAVector h _
      · cases hL : LENGTH h (GET_DIM h v) with
        | error e =>
          simp only
          intro hc
          simp only [Except.error.injEq] at hc
          rw [hc] at hL
          exact LENGTH_ne_NotAVector h _ hL
        | ok l =>
          simp only
          split
          · exact LENGTH_ne_NotAVector h _
          · cases hI : INTEGER h (GET_DIM h v) with
            | error e =>
              simp only
              intro hc
              simp only [Except.error.injEq] at hc
              exact INTEGER_ok_ne h _ e hI hc
            | ok p =>
              simp only
              intro hc
              have := load_int_error h p 0 _ hc
              simp at this

theorem LENGTH_list (h : Heap) (x : SEXP) (hl : TYPEOF h x = .VECSXP) (hx : x ≠ R_NilValue) :
    LENGTH h x = .ok ((h x).elts.length : Int) := by
  unfold LENGTH
  unfold TYPEOF at hl
  rw [if_neg hx, hl]

/-- One iteration of the loop of `sapply_NROW` on a list, at an index inside it. -/
theorem sapply_loop_step (h : Heap) (x : SEXP) (hl : TYPEOF h x = .VECSXP) (k i : Nat)
    (ans : List Int) (v : SEXP) (hv : (h x).elts[i]? = some v) :
    sapply_loop h x (k + 1) (i : Int) ans
      = if v ≠ R_NilValue ∧ IS_VECTOR h v = false then .error (.InvalidElement ((i : Int) + 1))
        else
          match get_NROW h v with
          | .error e => .error e
          | .ok r => sapply_loop h x k ((i + 1 : Nat) : Int) (ans ++ [r]) := by
  have e3 : (i : Int) + 1 = ((i + 1 : Nat) : Int) := by push_cast; rfl
  rw [← e3]
  simp only [sapply_loop, VECTOR_ELT_ok h x i v hl hv]

/-- The loop of `sapply_NROW` on entries that are all null or array-like (with
vector `row.names` and integer `dim` attributes): it ends normally and appends to `ans` the row count
of each entry, in order. -/
theorem sapply_loop_ok (h : Heap) (x : SEXP) (hl : TYPEOF h x = .VECSXP) :
    ∀ (k i : Nat) (ans : List Int), i + k ≤ (h x).elts.length →
      (∀ j v, i ≤ j → j < i + k → (h x).elts[j]? = some v →
        (v = R_NilValue ∨ IS_VECTOR h v = true) ∧ (IS_VECTOR h v = true → dim_is_integer h v)
          ∧ (IS_VECTOR h v = true → row_names_is_vector h v)) →
      ∃ rs, sapply_loop h x k (i : Int) ans = .ok (ans ++ rs) ∧ rs.length = k
        ∧ ∀ j v, j < k → (h x).elts[i + j]? = some v →
            ∃ r, rs[j]? = some r ∧ get_NROW h v = .ok r := by
  intro k
  induction k with
  | zero =>
    intro i ans _ _
    exact ⟨[], by simp [sapply_loop], rfl, fun j v hj => absurd hj (Nat.not_lt_zero j)⟩
  | succ k ih =>
    intro i ans hb hall
    have hlt : i < (h x).elts.length := by omega
    have hv : (h x).elts[i]? = some ((h x).elts[i]) := List.getElem?_eq_getElem hlt
    obtain ⟨hvalid, hdim, hrow⟩ := hall i _ (Nat.le_refl i) (by omega) hv
    obtain ⟨r, hr⟩ := get_NROW_ok h _ hvalid hdim hrow
    obtain ⟨rs, hrun, hlen, hrs⟩ := ih (i + 1) (ans ++ [r]) (by omega)
      (fun j v h1 h2 hj => hall j v (by omega) (by omega) hj)
    have hcond : ¬ ((h x).elts[i] ≠ R_NilValue ∧ IS_VECTOR h ((h x).elts[i]) = false) := by
      rintro ⟨hn, hf⟩
      rcases hvalid with hvalid | hvalid
      · exact hn hvalid
      · rw [hf] at hvalid
        exact Bool.noConfusion hvalid
    refine ⟨r :: rs, ?_, by simp [hlen], ?_⟩
    · rw [sapply_loop_step h x hl k i ans _ hv, if_neg hcond, hr]
      simp only
      rw [hrun, List.append_assoc]
      rfl
    · intro j v hj hjv
      cases j with
      | zero =>
        rw [Nat.add_zero, hv] at hjv
        simp only [Option.some.injEq] at hjv
        subst hjv
        exact ⟨r, by simp, hr⟩
      | succ j =>
        have hidx : i + (j + 1) = i + 1 + j := by omega
        rw [hidx] at hjv
        obtain ⟨r1, hr1, hg⟩ := hrs j v (by omega) hjv
        exact ⟨r1, by simpa using hr1, hg⟩

/-- The loop of `sapply_NROW` fails at the first entry that is neither null
nor array-like, with the position (counted from 1) of that entry. -/
theorem sapply_loop_fails_at (h : Heap) (x : SEXP) (hl : TYPEOF h x = .VECSXP) (m : Nat)
    (v : SEXP) (hm : (h x).elts[m]? = some v) (hbad : v ≠ R_NilValue ∧ IS_VECTOR h v = false)
    (hbefore : ∀ j u, j < m → (h x).elts[j]? = some u →
      (u = R_NilValue ∨ IS_VECTOR h u = true) ∧ (IS_VECTOR h u = true → dim_is_integer h u)
        ∧ (IS_VECTOR h u = true → row_names_is_vector h u)) :
    ∀ (k i : Nat) (ans : List Int), i ≤ m → m < i + k →
      sapply_loop h x k (i : Int) ans = .error (.InvalidElement ((m : Int) + 1)) := by
  intro k
  induction k with
  | zero =>
    intro i ans h1 h2
    omega
  | succ k ih =>
    intro i ans h1 h2
    by_cases him : i = m
    · subst him
      rw [sapply_loop_step h x hl k i ans v hm, if_pos hbad]
    · have hlt : i < (h x).elts.length := by
        have := (List.getElem?_eq_some_iff.mp hm).1
        omega
      have hv : (h x).elts[i]? = some ((h x).elts[i]) := List.getElem?_eq_getElem hlt
      obtain ⟨hvalid, hdim, hrow⟩ := hbefore i _ (by omega) hv
      obtain ⟨r, hr⟩ := get_NROW_ok h _ hvalid hdim hrow
      have hcond : ¬ ((h x).elts[i] ≠ R_NilValue ∧ IS_VECTOR h ((h x).elts[i]) = false) := by
        rintro ⟨hn, hf⟩
        rcases hvalid with hvalid | hvalid
        · exact hn hvalid
        · rw [hf] at hvalid
          exact Bool.noConfusion hvalid
      rw [sapply_loop_step h x hl k i ans _ hv, if_neg hcond, hr]
      exact ih (i + 1) _ (by omega) (by omega)

/-- The loop of `sapply_NROW` never fails with the error of `get_NROW`
(`get_NROW() defined only on a vector (or NULL)`). -/
theorem sapply_loop_ne_NotAVector (h : Heap) (x : SEXP) :
    ∀ (k : Nat) (i : Int) (ans : List Int), sapply_loop h x k i ans ≠ .error .NotAVector := by
  intro k
  induction k with
  | zero =>
    intro i ans
    simp [sapply_loop]
  | succ k ih =>
    intro i ans
    unfold sapply_loop
    cases hg : VECTOR_ELT h x i with
    | error e =>
      simp only
      intro hc
      simp only [Except.error.injEq] at hc
      rcases VECTOR_ELT_error h x i e hg with h1 | h1 <;> rw [h1] at hc <;> simp at hc
    | ok v =>
      simp only
      split
      · simp
      · rename_i hcond
        cases hn : get_NROW h v with
        | error e =>
          simp only
          intro hc
          simp only [Except.error.injEq] at hc
          rw [hc] at hn
          exact get_NROW_ne_NotAVector h v hcond hn
        | ok r =>
          simp only
          exact ih _ _

/-- On a list whose array-like entries have vector `row.names` and integer `dim`
attributes, every failure of the loop of `sapply_NROW` is the positional
error, at an entry that is neither null nor array-like. -/
theorem sapply_loop_error (h : Heap) (x : SEXP) (hl : TYPEOF h x = .VECSXP)
    (hd : ∀ v, v ∈ (h x).elts → IS_VECTOR h v = true → dim_is_integer h v)
    (hrn : ∀ v, v ∈ (h x).elts → IS_VECTOR h v = true → row_names_is_vector h v) :
    ∀ (k i : Nat) (ans : List Int) (e : Failure), i + k ≤ (h x).elts.length →
      sapply_loop h x k (i : Int) ans = .error e →
      ∃ m v, i ≤ m ∧ m < i + k ∧ (h x).elts[m]? = some v
        ∧ v ≠ R_NilValue ∧ IS_VECTOR h v = false ∧ e = .InvalidElement ((m : Int) + 1) := by
  intro k
  induction k with
  | zero =>
    intro i ans e _ he
    simp [sapply_loop] at he
  | succ k ih =>
    intro i ans e hb he
    have hlt : i < (h x).elts.length := by omega
    have hv : (h x).elts[i]? = some ((h x).elts[i]) := List.getElem?_eq_getElem hlt
    rw [sapply_loop_step h x hl k i ans _ hv] at he
    by_cases hcond : (h x).elts[i] ≠ R_NilValue ∧ IS_VECTOR h ((h x).elts[i]) = false
    · rw [if_pos hcond] at he
      simp only [Except.error.injEq] at he
      exact ⟨i, _, Nat.le_refl i, by omega, hv, hcond.1, hcond.2, he.symm⟩
    · rw [if_neg hcond] at he
      have hvalid : (h x).elts[i] = R_NilValue ∨ IS_VECTOR h ((h x).elts[i]) = true := by
        by_cases h0 : (h x).elts[i] = R_NilValue
        · exact Or.inl h0
        · cases hb2 : IS_VECTOR h ((h x).elts[i])
          · exact absurd ⟨h0, hb2⟩ hcond
          · exact Or.inr rfl
      have hdim := hd _ (List.getElem_mem hlt)
      obtain ⟨r, hr⟩ := get_NROW_ok h _ hvalid hdim (hrn _ (List.getElem_mem hlt))
      rw [hr] at he
      obtain ⟨m, v, h1, h2, h3⟩ := ih (i + 1) _ e (by omega) he
      exact ⟨m, v, by omega, by omega, h3⟩

/-- The loop of `sapply_NROW` on a list fails when an entry that is neither null
nor array-like lies ahead. -/
theorem sapply_loop_fails (h : Heap) (x : SEXP) (hl : TYPEOF h x = .VECSXP) :
    ∀ (k i : Nat) (ans : List Int), i + k ≤ (h x).elts.length →
      (∃ m v, i ≤ m ∧ m < i + k ∧ (h x).elts[m]? = some v
        ∧ v ≠ R_NilValue ∧ IS_VECTOR h v = false) →
      ∃ e, sapply_loop h x k (i : Int) ans = .error e := by
  intro k
  induction k with
  | zero =>
    intro i ans _ hex
    obtain ⟨m, v, h1, h2, _⟩ := hex
    omega
  | succ k ih =>
    intro i ans hb hex
    have hlt : i < (h x).elts.length := by omega
    have hv : (h x).elts[i]? = some ((h x).elts[i]) := List.getElem?_eq_getElem hlt
    rw [sapply_loop_step h x hl k i ans _ hv]
    by_cases hcond : (h x).elts[i] ≠ R_NilValue ∧ IS_VECTOR h ((h x).elts[i]) = false
    · exact ⟨_, by rw [if_pos hcond]⟩
    · rw [if_neg hcond]
      cases hn : get_NROW h ((h x).elts[i]) with
      | error e => exact ⟨e, rfl⟩
      | ok r =>
        simp only
        obtain ⟨m, v, h1, h2, h3, h4⟩ := hex
        have hmi : m ≠ i := by
          intro hc
          subst hc
          rw [hv] at h3
          simp only [Option.some.injEq] at h3
          rw [← h3] at h4
          exact hcond h4
        exact ih (i + 1) _ (by omega) ⟨m, v, by omega, by omega, h3, h4⟩

/-! ## Claims on `sapply_NROW` -/

/-- C13: for every list all of whose entries are array-like or null (the
`row.names` attributes of the array-like entries being vectors and their `dim`
attributes integer vectors), `map_row_counts` (`sapply_NROW`) succeeds and
returns a sequence of the length of the list whose `i`-th element is
`infer_row_count` (`get_NROW`) of the `i`-th entry. -/
theorem C13_map_row_counts_maps (h : Heap) (x : SEXP) (hl : TYPEOF h x = .VECSXP)
    (hx : x ≠ R_NilValue)
    (hv : ∀ v, v ∈ (h x).elts → v = R_NilValue ∨ IS_VECTOR h v = true)
    (hd : ∀ v, v ∈ (h x).elts → IS_VECTOR h v = true → dim_is_integer h v)
    (hr : ∀ v, v ∈ (h x).elts → IS_VECTOR h v = true → row_names_is_vector h v) :
    ∃ rs, sapply_NROW h x = .ok rs ∧ rs.length = (h x).elts.length
      ∧ ∀ (i : Nat) (v : SEXP), (h x).elts[i]? = some v →
          ∃ r, rs[i]? = some r ∧ get_NROW h v = .ok r := by
  obtain ⟨rs, hrun, hlen, hrs⟩ := sapply_loop_ok h x hl (h x).elts.length 0 [] (by omega)
    (fun j v _ _ hj => ⟨hv v (List.getElem?_mem hj), hd v (List.getElem?_mem hj),
      hr v (List.getElem?_mem hj)⟩)
  refine ⟨rs, ?_, hlen, ?_⟩
  · unfold sapply_NROW
    rw [LENGTH_list h x hl hx]
    simp only [Int.toNat_ofNat]
    simpa using hrun
  · intro i v hi
    have hlt := (List.getElem?_eq_some_iff.mp hi).1
    exact hrs i v hlt (by simpa using hi)

/-- Witness of C13: the list 5 of the second example heap, made of an integer
vector of length 4, `NULL` and a data frame with two row labels, gives 4, 0, 2. -/
theorem C13_map_row_counts_maps_witness :
    (∃ rs, sapply_NROW collectionHeap 5 = .ok rs ∧ rs.length = (collectionHeap 5).elts.length
      ∧ ∀ (i : Nat) (v : SEXP), (collectionHeap 5).elts[i]? = some v →
          ∃ r, rs[i]? = some r ∧ get_NROW collectionHeap v = .ok r)
      ∧ sapply_NROW collectionHeap 5 = .ok [4, 0, 2] :=
  ⟨C13_map_row_counts_maps collectionHeap 5 (by decide) (by decide) (by decide) (by decide)
    (by decide),
    by decide⟩

/-- C14: on a list (the `row.names` attributes of its array-like entries being
vectors and their `dim` attributes integer vectors), `map_row_counts`
(`sapply_NROW`) fails if and only if some entry is neither null nor
array-like; it then fails with `InvalidElement` and the position, counted from
1, of the first such entry, and returns no result. -/
theorem C14_map_row_counts_fails_at_first_invalid (h : Heap) (x : SEXP)
    (hl : TYPEOF h x = .VECSXP) (hx : x ≠ R_NilValue)
    (hd : ∀ v, v ∈ (h x).elts → IS_VECTOR h v = true → dim_is_integer h v)
    (hr : ∀ v, v ∈ (h x).elts → IS_VECTOR h v = true → row_names_is_vector h v) :
    ((∃ e, sapply_NROW h x = .error e)
        ↔ ∃ v, v ∈ (h x).elts ∧ v ≠ R_NilValue ∧ IS_VECTOR h v = false)
      ∧ ∀ (k : Nat) (v : SEXP), (h x).elts[k]? = some v → v ≠ R_NilValue →
          IS_VECTOR h v = false →
          (∀ (j : Nat) (u : SEXP), j < k → (h x).elts[j]? = some u → u = R_NilValue ∨ IS_VECTOR h u = true) →
          sapply_NROW h x = .error (.InvalidElement ((k : Int) + 1)) := by
  have hrun : sapply_NROW h x = sapply_loop h x (h x).elts.length ((0 : Nat) : Int) [] := by
    unfold sapply_NROW
    rw [LENGTH_list h x hl hx]
    simp only [Int.toNat_ofNat]
    rfl
  rw [hrun]
  refine ⟨⟨?_, ?_⟩, ?_⟩
  · rintro ⟨e, he⟩
    obtain ⟨m, v, _, _, hm, h1, h2, _⟩ :=
      sapply_loop_error h x hl hd hr (h x).elts.length 0 [] e (by omega) he
    exact ⟨v, List.getElem?_mem hm, h1, h2⟩
  · rintro ⟨v, hmem, h1, h2⟩
    obtain ⟨m, hm, hmv⟩ := List.getElem_of_mem hmem
    exact sapply_loop_fails h x hl (h x).elts.length 0 [] (by omega)
      ⟨m, v, Nat.zero_le m, by omega, by rw [List.getElem?_eq_getElem hm, hmv], h1, h2⟩
  · intro k v hk h1 h2 hbefore
    have hlt := (List.getElem?_eq_some_iff.mp hk).1
    exact sapply_loop_fails_at h x hl k v hk ⟨h1, h2⟩
      (fun j u hj hu => ⟨hbefore j u hj hu, hd u (List.getElem?_mem hu),
        hr u (List.getElem?_mem hu)⟩)
      (h x).elts.length 0 [] (Nat.zero_le k) (by omega)

/-- Witness of C14: the list 11 of the second example heap, made of an integer
vector of length 4 and a closure, fails with the position 2. -/
theorem C14_map_row_counts_fails_at_first_invalid_witness :
    (((∃ e, sapply_NROW collectionHeap 11 = .error e)
        ↔ ∃ v, v ∈ (collectionHeap 11).elts ∧ v ≠ R_NilValue ∧ IS_VECTOR collectionHeap v = false)
      ∧ ∀ (k : Nat) (v : SEXP), (collectionHeap 11).elts[k]? = some v → v ≠ R_NilValue →
          IS_VECTOR collectionHeap v = false →
          (∀ (j : Nat) (u : SEXP), j < k → (collectionHeap 11).elts[j]? = some u →
            u = R_NilValue ∨ IS_VECTOR collectionHeap u = true) →
          sapply_NROW collectionHeap 11 = .error (.InvalidElement ((k : Int) + 1)))
      ∧ sapply_NROW collectionHeap 11 = .error (.InvalidElement 2) :=
  ⟨C14_map_row_counts_fails_at_first_invalid collectionHeap 11 (by decide) (by decide)
    (by decide) (by decide), by decide⟩

/-- C20: `map_row_counts` (`sapply_NROW`) never fails with the error of
`get_NROW` that carries no position (`get_NROW() defined only on a vector (or
NULL)`): it calls `get_NROW` only on entries that are null or array-like.  On
a list (the `row.names` attributes of its array-like entries being vectors and
their `dim` attributes integer vectors) every failure of `sapply_NROW` is the
positional error `element i not a vector (or NULL)`, with `i` the position of
an entry that is neither. -/
theorem C20_get_NROW_error_unreachable (h : Heap) (x : SEXP) :
    sapply_NROW h x ≠ .error .NotAVector
      ∧ (TYPEOF h x = .VECSXP → x ≠ R_NilValue →
          (∀ v, v ∈ (h x).elts → IS_VECTOR h v = true → dim_is_integer h v) →
          (∀ v, v ∈ (h x).elts → IS_VECTOR h v = true → row_names_is_vector h v) →
          ∀ e, sapply_NROW h x = .error e →
            ∃ (m : Nat) (v : SEXP), (h x).elts[m]? = some v ∧ v ≠ R_NilValue
              ∧ IS_VECTOR h v = false ∧ e = .InvalidElement ((m : Int) + 1)) := by
  constructor
  · unfold sapply_NROW
    cases hL : LENGTH h x with
    | error e =>
      simp only
      intro hc
      simp only [Except.error.injEq] at hc
      rw [hc] at hL
      exact LENGTH_ne_NotAVector h x hL
    | ok l =>
      simp only
      exact sapply_loop_ne_NotAVector h x _ _ _
  · intro hl hx hd hr e he
    have hrun : sapply_NROW h x = sapply_loop h x (h x).elts.length ((0 : Nat) : Int) [] := by
      unfold sapply_NROW
      rw [LENGTH_list h x hl hx]
      simp only [Int.toNat_ofNat]
      rfl
    rw [hrun] at he
    obtain ⟨m, v, _, _, hm, h1, h2, h3⟩ :=
      sapply_loop_error h x hl hd hr (h x).elts.length 0 [] e (by omega) he
    exact ⟨m, v, hm, h1, h2, h3⟩

/-- Witness of C20: the list 11 of the second example heap, whose second entry
is a closure, fails with the positional error for the position 2. -/
theorem C20_get_NROW_error_unreachable_witness :
    sapply_NROW collectionHeap 11 ≠ .error .NotAVector
      ∧ ∃ (m : Nat) (v : SEXP), (collectionHeap 11).elts[m]? = some v ∧ v ≠ R_NilValue
          ∧ IS_VECTOR collectionHeap v = false
          ∧ Failure.InvalidElement 2 = .InvalidElement ((m : Int) + 1) :=
  ⟨(C20_get_NROW_error_unreachable collectionHeap 11).1,
   (C20_get_NROW_error_unreachable collectionHeap 11).2 (by decide) (by decide) (by decide)
     (by decide)
     (.InvalidElement 2) (by decide)⟩

/-! ## The frame of `_vector_memcpy` -/

theorem size_t_le (z : Nat) : size_t (z : Int) ≤ z := by
  unfold size_t
  omega

/-- A successful `memcpy` writes as many bytes as asked, inside the data area
of the destination object, and nothing else. -/
theorem memcpy_ok (h : Heap) (d s : Ptr) (cnt : Nat) (h1 : Heap)
    (hok : memcpy h d s cnt = .ok h1) :
    ∃ bs : List Byte, bs.length = cnt ∧ d.off.toNat + cnt ≤ (h d.base).data.length
      ∧ h1 = Function.update h d.base
          { h d.base with data := writeBytes (h d.base).data d.off.toNat bs } := by
  unfold memcpy at hok
  cases hs : readBytes h s cnt with
  | none => rw [hs] at hok; simp at hok
  | some bs =>
    cases hd : readBytes h d cnt with
    | none => rw [hs, hd] at hok; simp at hok
    | some ds =>
      rw [hs, hd] at hok
      simp only at hok
      split at hok
      · simp at hok
      · simp only [Except.ok.injEq] at hok
        unfold readBytes at hs hd
        split at hs
        · rename_i hsb
          split at hd
          · rename_i hdb
            simp only [Option.some.injEq] at hs
            refine ⟨bs, ?_, hdb.2, hok.symm⟩
            rw [← hs]
            simp
            omega
          · simp at hd
        · simp at hs

/-- What a write of bytes into the data area of one object leaves unchanged. -/
theorem write_frame (h : Heap) (x : SEXP) (off : Nat) (bs : List Byte)
    (hb : off + bs.length ≤ (h x).data.length) :
    (∀ y, y ≠ x → Function.update h x { h x with data := writeBytes (h x).data off bs } y = h y)
      ∧ (Function.update h x { h x with data := writeBytes (h x).data off bs } x).type
          = (h x).type
      ∧ (Function.update h x { h x with data := writeBytes (h x).data off bs } x).attrib
          = (h x).attrib
      ∧ (Function.update h x { h x with data := writeBytes (h x).data off bs } x).elts
          = (h x).elts
      ∧ (Function.update h x { h x with data := writeBytes (h x).data off bs } x).data.length
          = (h x).data.length
      ∧ (∀ j, (j < off ∨ off + bs.length ≤ j) →
          (Function.update h x { h x with data := writeBytes (h x).data off bs } x).data[j]?
            = (h x).data[j]?)
      ∧ (bs = [] → Function.update h x { h x with data := writeBytes (h x).data off bs } = h) := by
  refine ⟨?_, ?_, ?_, ?_, ?_, ?_, ?_⟩
  · intro y hy
    simp [Function.update, hy]
  · simp
  · simp
  · simp
  · simp only [Function.update_same]
    exact writeBytes_length _ _ _ hb
  · intro j hj
    simp only [Function.update_same]
    rw [writeBytes_getElem? _ _ _ _ hb, if_neg (by omega)]
  · intro hnil
    subst hnil
    have : writeBytes (h x).data off [] = (h x).data := by
      unfold writeBytes
      simp
    rw [this]
    exact Function.update_eq_self x h


theorem RAW_ok (h : Heap) (x : SEXP) (p : Ptr) (hp : RAW h x = .ok p) : p = ⟨x, 0⟩ := by
  unfold RAW at hp
  split at hp <;> simp_all

theorem INTEGER_ok (h : Heap) (x : SEXP) (p : Ptr) (hp : INTEGER h x = .ok p) : p = ⟨x, 0⟩ := by
  unfold INTEGER at hp
  split at hp <;> simp_all

theorem LOGICAL_ok (h : Heap) (x : SEXP) (p : Ptr) (hp : LOGICAL h x = .ok p) : p = ⟨x, 0⟩ := by
  unfold LOGICAL at hp
  split at hp <;> simp_all

theorem REAL_ok (h : Heap) (x : SEXP) (p : Ptr) (hp : REAL h x = .ok p) : p = ⟨x, 0⟩ := by
  unfold REAL at hp
  split at hp <;> simp_all

theorem COMPLEX_ok (h : Heap) (x : SEXP) (p : Ptr) (hp : COMPLEX h x = .ok p) : p = ⟨x, 0⟩ := by
  unfold COMPLEX at hp
  split at hp <;> simp_all

/-- A successful fixed-width tail of `_vector_memcpy` writes at most
`nelt * eltsize` bytes at byte `out_offset * eltsize` of the data area of `out`. -/
theorem memcpy_tail_ok (h : Heap) (p1 p2 : Except Failure Ptr) (out : SEXP) (oo n w : Nat)
    (io : Int) (hp1 : ∀ p, p1 = .ok p → p = ⟨out, 0⟩)
    (hok : (memcpy_tail h (offset_ptrs p1 oo p2 io w) n).2 = .ok ()) :
    ∃ bs : List Byte, bs.length ≤ n * w ∧ (n = 0 → bs = [])
      ∧ oo * w + bs.length ≤ (h out).data.length
      ∧ (memcpy_tail h (offset_ptrs p1 oo p2 io w) n).1
          = Function.update h out { h out with data := writeBytes (h out).data (oo * w) bs } := by
  cases p1 with
  | error e => simp [offset_ptrs, memcpy_tail] at hok
  | ok q1 =>
    cases p2 with
    | error e => simp [offset_ptrs, memcpy_tail] at hok
    | ok q2 =>
      have hq1 := hp1 q1 rfl
      subst hq1
      simp only [offset_ptrs, memcpy_tail, Ptr.add] at hok ⊢
      cases hm : memcpy h ⟨out, 0 + (oo : Int) * (w : Int)⟩ ⟨q2.base, q2.off + io * (w : Int)⟩
          (size_t ((n : Int) * (w : Int))) with
      | error e => rw [hm] at hok; simp at hok
      | ok h1 =>
        simp only
        obtain ⟨bs, hlen, hb, hh1⟩ := memcpy_ok h _ _ _ h1 hm
        have c1 : ((0 : Int) + (oo : Int) * (w : Int)).toNat = oo * w := by
          have : (0 : Int) + (oo : Int) * (w : Int) = ((oo * w : Nat) : Int) := by
            push_cast; ring
          rw [this, Int.toNat_ofNat]
        have c2 : size_t ((n : Int) * (w : Int)) ≤ n * w := by
          have : (n : Int) * (w : Int) = ((n * w : Nat) : Int) := by push_cast; ring
          rw [this]
          exact size_t_le _
        simp only [c1] at hb hh1
        refine ⟨bs, by omega, ?_, by omega, hh1⟩
        intro hn0
        subst hn0
        have : size_t (((0 : Nat) : Int) * (w : Int)) = 0 := by simp [size_t]
        rw [this] at hlen
        exact List.length_eq_zero.mp hlen

theorem SET_STRING_ELT_ok_inv (g : Heap) (x : SEXP) (i : Int) (v : SEXP) (g1 : Heap)
    (hs : SET_STRING_ELT g x i v = .ok g1) : 0 ≤ i ∧ g1 = setSlot g x i.toNat v := by
  unfold SET_STRING_ELT at hs
  split at hs
  · simp at hs
  · split at hs
    · rename_i hb
      simp only [Except.ok.injEq] at hs
      exact ⟨hb.1, hs.symm⟩
    · simp at hs

theorem SET_VECTOR_ELT_ok_inv (g : Heap) (x : SEXP) (i : Int) (v : SEXP) (g1 : Heap)
    (hs : SET_VECTOR_ELT g x i v = .ok g1) : 0 ≤ i ∧ g1 = setSlot g x i.toNat v := by
  unfold SET_VECTOR_ELT at hs
  split at hs
  · simp at hs
  · split at hs
    · rename_i hb
      simp only [Except.ok.injEq] at hs
      exact ⟨hb.1, hs.symm⟩
    · simp at hs

/-- A successful loop of `_vector_memcpy` with `int` offsets changes nothing
but the slots `out_offset + i`, ..., `out_offset + i + k - 1` of `out`. -/
theorem slot_loop_frame (GET : Heap → SEXP → Int → Except Failure SEXP)
    (SET : Heap → SEXP → Int → SEXP → Except Failure Heap)
    (out : SEXP) (oo : Nat) (inp : SEXP) (io : Int)
    (hset : ∀ (g : Heap) (i : Int) (v : SEXP) (g1 : Heap), SET g out i v = .ok g1 →
      0 ≤ i ∧ g1 = setSlot g out i.toNat v) :
    ∀ (k i : Nat) (h : Heap), oo + i + k ≤ 4294967296 →
      (slot_loop GET SET out oo inp io k i h).2 = .ok () →
      (∀ y, y ≠ out → (slot_loop GET SET out oo inp io k i h).1 y = h y)
        ∧ ((slot_loop GET SET out oo inp io k i h).1 out).type = (h out).type
        ∧ ((slot_loop GET SET out oo inp io k i h).1 out).attrib = (h out).attrib
        ∧ ((slot_loop GET SET out oo inp io k i h).1 out).data = (h out).data
        ∧ ((slot_loop GET SET out oo inp io k i h).1 out).elts.length = (h out).elts.length
        ∧ ∀ j, (j < oo + i ∨ oo + i + k ≤ j) →
            ((slot_loop GET SET out oo inp io k i h).1 out).elts[j]? = (h out).elts[j]? := by
  intro k
  induction k with
  | zero =>
    intro i h _ _
    exact ⟨fun _ _ => rfl, rfl, rfl, rfl, rfl, fun _ _ => rfl⟩
  | succ k ih =>
    intro i h hb hok
    have e3 : (i : Int) + 1 = ((i + 1 : Nat) : Int) := by push_cast; rfl
    unfold slot_loop at hok ⊢
    cases hg : GET h inp (wrapInt (io + (i : Int))) with
    | error e => rw [hg] at hok; simp at hok
    | ok v =>
      rw [hg] at hok
      simp only at hok ⊢
      cases hs : SET h out (wrapInt ((oo : Int) + (i : Int))) v with
      | error e => rw [hs] at hok; simp at hok
      | ok g1 =>
        rw [hs] at hok
        simp only at hok ⊢
        obtain ⟨hnn, hg1⟩ := hset h _ v g1 hs
        have hidx : (wrapInt ((oo : Int) + (i : Int))).toNat = oo + i := by
          unfold wrapInt at hnn ⊢
          omega
        rw [hidx] at hg1
        subst hg1
        rw [e3] at hok ⊢
        obtain ⟨f1, f2, f3, f4, f5, f6⟩ := ih (i + 1) _ (by omega) hok
        refine ⟨?_, ?_, ?_, ?_, ?_, ?_⟩
        · intro y hy
          rw [f1 y hy, setSlot_other _ _ _ _ _ hy]
        · rw [f2, setSlot_same]
        · rw [f3, setSlot_same]
        · rw [f4, setSlot_same]
        · rw [f5, setSlot_same]
          simp
        · intro j hj
          rw [f6 j (by omega), setSlot_same]
          simp only
          rw [List.getElem?_set_ne (by omega)]


/-- The frame of a successful `_vector_memcpy` with `int` arguments: only the
object `out` changes, its type, attributes and sizes stay, and so do its bytes
and slots outside the range `out_offset`, ..., `out_offset + nelt - 1`; with
`nelt = 0` the heap does not change. -/
theorem vector_memcpy_ok_frame (h : Heap) (out inp : SEXP) (oo n : Nat) (io : Int)
    (hoo : isCInt oo) (hn : isCInt n)
    (hok : (_vector_memcpy h out oo inp io n).2 = .ok ()) :
    (∀ y, y ≠ out → (_vector_memcpy h out oo inp io n).1 y = h y)
      ∧ ((_vector_memcpy h out oo inp io n).1 out).type = (h out).type
      ∧ ((_vector_memcpy h out oo inp io n).1 out).attrib = (h out).attrib
      ∧ ((_vector_memcpy h out oo inp io n).1 out).data.length = (h out).data.length
      ∧ ((_vector_memcpy h out oo inp io n).1 out).elts.length = (h out).elts.length
      ∧ (∀ j, (j < oo * eltsize_of (TYPEOF h out) ∨ (oo + n) * eltsize_of (TYPEOF h out) ≤ j) →
          ((_vector_memcpy h out oo inp io n).1 out).data[j]? = (h out).data[j]?)
      ∧ (∀ j, (j < oo ∨ oo + n ≤ j) →
          ((_vector_memcpy h out oo inp io n).1 out).elts[j]? = (h out).elts[j]?)
      ∧ (n = 0 → (_vector_memcpy h out oo inp io n).1 = h) := by
  unfold isCInt at hoo hn
  have key : ∀ (p1 p2 : Except Failure Ptr) (w : Nat), (∀ p, p1 = .ok p → p = ⟨out, 0⟩) →
      (memcpy_tail h (offset_ptrs p1 oo p2 io w) n).2 = .ok () →
      (∀ y, y ≠ out → (memcpy_tail h (offset_ptrs p1 oo p2 io w) n).1 y = h y)
        ∧ ((memcpy_tail h (offset_ptrs p1 oo p2 io w) n).1 out).type = (h out).type
        ∧ ((memcpy_tail h (offset_ptrs p1 oo p2 io w) n).1 out).attrib = (h out).attrib
        ∧ ((memcpy_tail h (offset_ptrs p1 oo p2 io w) n).1 out).data.length
            = (h out).data.length
        ∧ ((memcpy_tail h (offset_ptrs p1 oo p2 io w) n).1 out).elts.length
            = (h out).elts.length
        ∧ (∀ j, (j < oo * w ∨ (oo + n) * w ≤ j) →
            ((memcpy_tail h (offset_ptrs p1 oo p2 io w) n).1 out).data[j]? = (h out).data[j]?)
        ∧ (∀ j, (j < oo ∨ oo + n ≤ j) →
            ((memcpy_tail h (offset_ptrs p1 oo p2 io w) n).1 out).elts[j]? = (h out).elts[j]?)
        ∧ (n = 0 → (memcpy_tail h (offset_ptrs p1 oo p2 io w) n).1 = h) := by
    intro p1 p2 w hp1 hk
    obtain ⟨bs, hle, hn0, hb, hh1⟩ := memcpy_tail_ok h p1 p2 out oo n w io hp1 hk
    obtain ⟨w1, w2, w3, w4, w5, w6, w7⟩ := write_frame h out (oo * w) bs hb
    rw [hh1]
    refine ⟨w1, w2, w3, w5, by rw [w4], ?_, fun j _ => by rw [w4], fun h0 => w7 (hn0 h0)⟩
    intro j hj
    apply w6
    rw [Nat.add_mul] at hj
    omega
  have loop : ∀ (GET : Heap → SEXP → Int → Except Failure SEXP)
      (SET : Heap → SEXP → Int → SEXP → Except Failure Heap) (w : Nat),
      (∀ (g : Heap) (i : Int) (v : SEXP) (g1 : Heap), SET g out i v = .ok g1 →
        0 ≤ i ∧ g1 = setSlot g out i.toNat v) →
      (slot_loop GET SET out oo inp io (n : Int).toNat 0 h).2 = .ok () →
      (∀ y, y ≠ out → (slot_loop GET SET out oo inp io (n : Int).toNat 0 h).1 y = h y)
        ∧ ((slot_loop GET SET out oo inp io (n : Int).toNat 0 h).1 out).type = (h out).type
        ∧ ((slot_loop GET SET out oo inp io (n : Int).toNat 0 h).1 out).attrib = (h out).attrib
        ∧ ((slot_loop GET SET out oo inp io (n : Int).toNat 0 h).1 out).data.length
            = (h out).data.length
        ∧ ((slot_loop GET SET out oo inp io (n : Int).toNat 0 h).1 out).elts.length
            = (h out).elts.length
        ∧ (∀ j, (j < oo * w ∨ (oo + n) * w ≤ j) →
            ((slot_loop GET SET out oo inp io (n : Int).toNat 0 h).1 out).data[j]?
              = (h out).data[j]?)
        ∧ (∀ j, (j < oo ∨ oo + n ≤ j) →
            ((slot_loop GET SET out oo inp io (n : Int).toNat 0 h).1 out).elts[j]?
              = (h out).elts[j]?)
        ∧ (n = 0 → (slot_loop GET SET out oo inp io (n : Int).toNat 0 h).1 = h) := by
    intro GET SET w hset hk
    rw [Int.toNat_ofNat] at hk ⊢
    have h0 : (0 : Int) = ((0 : Nat) : Int) := rfl
    rw [h0] at hk ⊢
    obtain ⟨f1, f2, f3, f4, f5, f6⟩ :=
      slot_loop_frame GET SET out oo inp io hset n 0 h (by omega) hk
    refine ⟨f1, f2, f3, by rw [f4], f5, fun j _ => by rw [f4], fun j hj => f6 j (by omega), ?_⟩
    intro hn0
    subst hn0
    rfl
  generalize hR : _vector_memcpy h out oo inp io n = R at hok ⊢
  unfold _vector_memcpy at hR
  cases hb : out_of_bounds h out oo inp io n with
  | error e1 =>
    rw [hb] at hR
    simp only at hR
    subst hR
    simp at hok
  | ok b =>
    cases b with
    | true =>
      rw [hb] at hR
      simp only at hR
      subst hR
      simp at hok
    | false =>
      rw [hb] at hR
      simp only at hR
      cases hty : TYPEOF h out <;> rw [hty] at hR <;> simp only at hR <;> subst hR <;>
        simp only [eltsize_of]
      all_goals first | (simp at hok; done) | skip
      · exact key (LOGICAL h out) (LOGICAL h inp) 4 (LOGICAL_ok h out) hok
      · exact key (INTEGER h out) (INTEGER h inp) 4 (INTEGER_ok h out) hok
      · exact key (REAL h out) (REAL h inp) 8 (REAL_ok h out) hok
      · exact key (COMPLEX h out) (COMPLEX h inp) 16 (COMPLEX_ok h out) hok
      · exact loop STRING_ELT SET_STRING_ELT 0
          (fun g i v g1 => SET_STRING_ELT_ok_inv g out i v g1) hok
      · exact loop VECTOR_ELT SET_VECTOR_ELT 0
          (fun g i v g1 => SET_VECTOR_ELT_ok_inv g out i v g1) hok
      · exact key (RAW h out) (RAW h inp) 1 (RAW_ok h out) hok

theorem LENGTH_congr (h h1 : Heap) (x : SEXP) (ht : (h1 x).type = (h x).type)
    (hd : (h1 x).data.length = (h x).data.length)
    (he : (h1 x).elts.length = (h x).elts.length) : LENGTH h1 x = LENGTH h x := by
  unfold LENGTH
  rw [ht, hd, he]

/-- A successful `_vector_memcpy` was accepted by the bounds check. -/
theorem vector_memcpy_ok_bounds (h : Heap) (out : SEXP) (oo : Int) (inp : SEXP) (io n : Int)
    (hok : (_vector_memcpy h out oo inp io n).2 = .ok ()) :
    out_of_bounds h out oo inp io n = .ok false := by
  generalize hR : _vector_memcpy h out oo inp io n = R at hok
  unfold _vector_memcpy at hR
  cases hb : out_of_bounds h out oo inp io n with
  | error e1 =>
    rw [hb] at hR
    simp only at hR
    subst hR
    simp at hok
  | ok b =>
    cases b with
    | true =>
      rw [hb] at hR
      simp only at hR
      subst hR
      simp at hok
    | false => rfl

/-- A call the bounds check accepts is on a first object that has a length. -/
theorem out_of_bounds_false_length (h : Heap) (x1 : SEXP) (o1 : Int) (x2 : SEXP) (o2 n : Int)
    (hb : out_of_bounds h x1 o1 x2 o2 n = .ok false) : ∃ l : Int, LENGTH h x1 = .ok l := by
  unfold out_of_bounds at hb
  split at hb
  · simp at hb
  · cases hL : LENGTH h x1 with
    | error e =>
      rw [hL] at hb
      simp at hb
    | ok l => exact ⟨l, rfl⟩

/-- C15: for every successful call `copy_range(dest, dest_offset, src,
src_offset, n)` (`_vector_memcpy`) on distinct arrays, with `int` arguments:
the length of `dest` is unchanged (`LENGTH` returns for `dest` the same number
before and after the call), every element of `dest` at an index outside
`[dest_offset, dest_offset + n)` is unchanged (each of its bytes for a
fixed-width kind, its slot for a reference kind), and `src` is unchanged; with
`n = 0` the whole of `dest` is unchanged. -/
theorem C15_copy_range_frame (h : Heap) (dest src : SEXP) (dest_offset src_offset n : Nat)
    (hne : dest ≠ src) (hdo : isCInt dest_offset) (hn : isCInt n)
    (hok : (_vector_memcpy h dest dest_offset src src_offset n).2 = .ok ()) :
    (∃ l : Int, LENGTH h dest = .ok l
        ∧ LENGTH (_vector_memcpy h dest dest_offset src src_offset n).1 dest = .ok l)
      ∧ (∀ j b, (j < dest_offset ∨ dest_offset + n ≤ j) → b < eltsize_of (TYPEOF h dest) →
          ((_vector_memcpy h dest dest_offset src src_offset n).1 dest).data[
              j * eltsize_of (TYPEOF h dest) + b]?
            = (h dest).data[j * eltsize_of (TYPEOF h dest) + b]?)
      ∧ (∀ j, (j < dest_offset ∨ dest_offset + n ≤ j) →
          ((_vector_memcpy h dest dest_offset src src_offset n).1 dest).elts[j]?
            = (h dest).elts[j]?)
      ∧ (_vector_memcpy h dest dest_offset src src_offset n).1 src = h src
      ∧ (n = 0 → (_vector_memcpy h dest dest_offset src src_offset n).1 dest = h dest) := by
  obtain ⟨f1, f2, _, f4, f5, f6, f7, f8⟩ :=
    vector_memcpy_ok_frame h dest src dest_offset n src_offset hdo hn hok
  obtain ⟨l, hl⟩ := out_of_bounds_false_length h dest dest_offset src src_offset n
    (vector_memcpy_ok_bounds h dest dest_offset src src_offset n hok)
  refine ⟨⟨l, hl, by rw [LENGTH_congr _ _ _ f2 f4 f5, hl]⟩, ?_, f7, f1 src (Ne.symm hne),
    fun h0 => by rw [f8 h0]⟩
  intro j b hj hb
  apply f6
  rcases hj with hj | hj
  · left
    have : (j + 1) * eltsize_of (TYPEOF h dest) ≤ dest_offset * eltsize_of (TYPEOF h dest) :=
      Nat.mul_le_mul_right _ hj
    rw [Nat.add_mul, Nat.one_mul] at this
    omega
  · right
    have : (dest_offset + n) * eltsize_of (TYPEOF h dest) ≤ j * eltsize_of (TYPEOF h dest) :=
      Nat.mul_le_mul_right _ hj
    omega

/-- Witness of C15: in the first example heap, two bytes of the raw vector 4
copied to the bytes 1 and 2 of the raw vector 3, which keeps its length 5 and
its bytes 0, 3 and 4. -/
theorem C15_copy_range_frame_witness :
    ((∃ l : Int, LENGTH exampleHeap 3 = .ok l
        ∧ LENGTH (_vector_memcpy exampleHeap 3 (1 : Nat) 4 (2 : Nat) (2 : Nat)).1 3 = .ok l)
      ∧ (∀ j b, (j < 1 ∨ 1 + 2 ≤ j) → b < eltsize_of (TYPEOF exampleHeap 3) →
          ((_vector_memcpy exampleHeap 3 (1 : Nat) 4 (2 : Nat) (2 : Nat)).1 3).data[
              j * eltsize_of (TYPEOF exampleHeap 3) + b]?
            = (exampleHeap 3).data[j * eltsize_of (TYPEOF exampleHeap 3) + b]?)
      ∧ (∀ j, (j < 1 ∨ 1 + 2 ≤ j) →
          ((_vector_memcpy exampleHeap 3 (1 : Nat) 4 (2 : Nat) (2 : Nat)).1 3).elts[j]?
            = (exampleHeap 3).elts[j]?)
      ∧ (_vector_memcpy exampleHeap 3 (1 : Nat) 4 (2 : Nat) (2 : Nat)).1 4 = exampleHeap 4
      ∧ ((2 : Nat) = 0 →
          (_vector_memcpy exampleHeap 3 (1 : Nat) 4 (2 : Nat) (2 : Nat)).1 3 = exampleHeap 3))
      ∧ LENGTH (_vector_memcpy exampleHeap 3 (1 : Nat) 4 (2 : Nat) (2 : Nat)).1 3 = .ok 5
      ∧ ((_vector_memcpy exampleHeap 3 (1 : Nat) 4 (2 : Nat) (2 : Nat)).1 3).data
          = [1, 4, 4, 4, 5] :=
  ⟨C15_copy_range_frame exampleHeap 3 4 1 2 2 (by decide) (by decide) (by decide) (by decide),
    by decide, by decide⟩

/-- The bytes of a written range, read back. -/
theorem writeBytes_slice (d : List Byte) (off : Nat) (bs : List Byte)
    (hb : off + bs.length ≤ d.length) :
    ((writeBytes d off bs).drop off).take bs.length = bs := by
  apply List.ext_getElem?
  intro k
  by_cases hk : k < bs.length
  · rw [getElem?_slice _ _ _ _ hk, writeBytes_getElem? _ _ _ _ hb, if_pos (by omega)]
    congr 1
    omega
  · rw [List.getElem?_eq_none (by
      rw [slice_length _ _ _ (by rw [writeBytes_length _ _ _ hb]; exact hb)]
      omega), List.getElem?_eq_none (by omega)]

/-- C16: copy then compare.  For two distinct arrays `dest`, `src` of one
fixed-width kind and every valid range (the lengths being the values `LENGTH`
returns, that of `dest` an `int`),
`copy_range(dest, dest_offset, src, src_offset, n)` (`_vector_memcpy`)
succeeds and, in the heap it leaves, `compare_range(dest, dest_offset, src,
src_offset, n)` (`_vector_memcmp`) returns 0. -/
theorem C16_copy_then_compare_is_zero (h : Heap) (dest src : SEXP)
    (dest_offset src_offset n : Nat) (length_dest length_src : Int) (hne : dest ≠ src)
    (hf : fixed_width (TYPEOF h dest) = true) (ht : TYPEOF h src = TYPEOF h dest)
    (hLd : LENGTH h dest = .ok length_dest) (hLs : LENGTH h src = .ok length_src)
    (hld : isCInt length_dest)
    (hd : (dest_offset : Int) + n ≤ length_dest) (hs : (src_offset : Int) + n ≤ length_src) :
    (_vector_memcpy h dest dest_offset src src_offset n).2 = .ok ()
      ∧ _vector_memcmp (_vector_memcpy h dest dest_offset src src_offset n).1
          dest dest_offset src src_offset n = .ok 0 := by
  have b1 := bytes_in_bounds h dest dest_offset n hf length_dest hLd hd
  have b2 := bytes_in_bounds h src src_offset n (by rw [ht]; exact hf) length_src hLs hs
  rw [ht] at b2
  have hsl : (range_bytes h src src_offset n).length = n * eltsize_of (TYPEOF h dest) := by
    unfold range_bytes
    rw [ht, slice_length _ _ _ b2]
  have hwb : dest_offset * eltsize_of (TYPEOF h dest) + (range_bytes h src src_offset n).length
      ≤ (h dest).data.length := by rw [hsl]; exact b1
  rw [vector_memcpy_fixed h dest src dest_offset src_offset n length_dest length_src hne hf ht
    hLd hLs hld hd hs]
  refine ⟨rfl, ?_⟩
  simp only
  obtain ⟨w1, w2, _, w4, w5, _, _⟩ := write_frame h dest
    (dest_offset * eltsize_of (TYPEOF h dest)) (range_bytes h src src_offset n) hwb
  generalize hh1 : Function.update h dest { h dest with
    data := writeBytes (h dest).data (dest_offset * eltsize_of (TYPEOF h dest))
      (range_bytes h src src_offset n) } = h1 at w1 w2 w4 w5
  have hsrc : h1 src = h src := w1 src (Ne.symm hne)
  have t1 : TYPEOF h1 dest = TYPEOF h dest := w2
  have t2 : TYPEOF h1 src = TYPEOF h src := by unfold TYPEOF; rw [hsrc]
  have l1 : LENGTH h1 dest = LENGTH h dest := LENGTH_congr h h1 dest w2 w5 (by rw [w4])
  have l2 : LENGTH h1 src = LENGTH h src := by
    apply LENGTH_congr <;> rw [hsrc]
  rw [vector_memcmp_fixed h1 dest src dest_offset src_offset n length_dest length_src
    (by rw [t1]; exact hf) (by rw [t1, t2]; exact ht) (by rw [l1]; exact hLd)
    (by rw [l2]; exact hLs) hld hd hs]
  have r2 : range_bytes h1 src src_offset n = range_bytes h src src_offset n := by
    unfold range_bytes
    rw [t2, hsrc]
  have r1 : range_bytes h1 dest dest_offset n = range_bytes h src src_offset n := by
    have hdata : (h1 dest).data = writeBytes (h dest).data
        (dest_offset * eltsize_of (TYPEOF h dest)) (range_bytes h src src_offset n) := by
      rw [← hh1]
      simp
    unfold range_bytes
    rw [t1, hdata, ← hsl]
    exact writeBytes_slice _ _ _ hwb
  rw [r1, r2, cmpBytes_self]

/-- Witness of C16: in the first example heap, two elements of the integer
vector 9 copied into the integer vector 15 and compared. -/
theorem C16_copy_then_compare_is_zero_witness :
    (_vector_memcpy exampleHeap 15 (1 : Nat) 9 (3 : Nat) (2 : Nat)).2 = .ok ()
      ∧ _vector_memcmp (_vector_memcpy exampleHeap 15 (1 : Nat) 9 (3 : Nat) (2 : Nat)).1
          15 (1 : Nat) 9 (3 : Nat) (2 : Nat) = .ok 0 :=
  C16_copy_then_compare_is_zero exampleHeap 15 9 1 3 2 3 6 (by decide) (by decide) (by decide)
    (by decide) (by decide) (by decide) (by decide) (by decide)

/-! ## Symmetry of `_vector_memcmp` -/

theorem cmpBytes_antisymm : ∀ (l1 l2 : List Byte), cmpBytes l1 l2 = - cmpBytes l2 l1
  | [], [] => by simp [cmpBytes]
  | [], _ :: _ => by simp [cmpBytes]
  | _ :: _, [] => by simp [cmpBytes]
  | a :: as, b :: bs => by
    by_cases hab : a = b
    · subst hab
      simp [cmpBytes, cmpBytes_antisymm as bs]
    · have hba : ¬ b = a := fun hc => hab hc.symm
      simp only [cmpBytes, hab, hba, if_false]
      omega

/-- C19: for two arrays `a`, `b` of one fixed-width kind and valid ranges (the
lengths being the `int` values `LENGTH` returns), `compare_range(a, a_offset,
b, b_offset, n)` and `compare_range(b, b_offset, a, a_offset, n)`
(`_vector_memcmp`) both return a value and the sign of the one is the negation
of the sign of the other: both are 0, or one is negative and the other
positive. -/
theorem C19_compare_sign_antisymmetric (h : Heap) (a b : SEXP) (a_offset b_offset n : Nat)
    (length_a length_b : Int)
    (hf : fixed_width (TYPEOF h a) = true) (ht : TYPEOF h b = TYPEOF h a)
    (hLa : LENGTH h a = .ok length_a) (hLb : LENGTH h b = .ok length_b)
    (hla : isCInt length_a) (hlb : isCInt length_b)
    (ha : (a_offset : Int) + n ≤ length_a) (hb : (b_offset : Int) + n ≤ length_b) :
    ∃ r1 r2, _vector_memcmp h a a_offset b b_offset n = .ok r1
      ∧ _vector_memcmp h b b_offset a a_offset n = .ok r2
      ∧ Int.sign r1 = - Int.sign r2
      ∧ ((r1 = 0 ∧ r2 = 0) ∨ (r1 < 0 ∧ 0 < r2) ∨ (0 < r1 ∧ r2 < 0)) := by
  refine ⟨_, _,
    vector_memcmp_fixed h a b a_offset b_offset n length_a length_b hf ht hLa hLb hla ha hb,
    vector_memcmp_fixed h b a b_offset a_offset n length_b length_a (by rw [ht]; exact hf)
      ht.symm hLb hLa hlb hb ha,
    ?_, ?_⟩
  · rw [cmpBytes_antisymm (range_bytes h a a_offset n), Int.sign_neg]
  · have := cmpBytes_antisymm (range_bytes h a a_offset n) (range_bytes h b b_offset n)
    omega

/-- Witness of C19: the raw vectors 3 and 4 of the first example heap, compared
in full in both orders. -/
theorem C19_compare_sign_antisymmetric_witness :
    ∃ r1 r2, _vector_memcmp exampleHeap 3 (0 : Nat) 4 (0 : Nat) (5 : Nat) = .ok r1
      ∧ _vector_memcmp exampleHeap 4 (0 : Nat) 3 (0 : Nat) (5 : Nat) = .ok r2
      ∧ Int.sign r1 = - Int.sign r2
      ∧ ((r1 = 0 ∧ r2 = 0) ∨ (r1 < 0 ∧ 0 < r2) ∨ (0 < r1 ∧ r2 < 0)) :=
  C19_compare_sign_antisymmetric exampleHeap 3 4 0 0 5 5 5 (by decide) (by decide) (by decide)
    (by decide) (by decide) (by decide) (by decide) (by decide)

/-! ## The bounds check and the dispatch on the type -/

/-- A `_vector_memcmp` that ends with `UnsupportedType` was accepted by the
bounds check. -/
theorem vector_memcmp_UnsupportedType (h : Heap) (x1 : SEXP) (o1 : Int) (x2 : SEXP)
    (o2 n : Int) (t : SEXPTYPE)
    (he : _vector_memcmp h x1 o1 x2 o2 n = .error (.UnsupportedType t)) :
    out_of_bounds h x1 o1 x2 o2 n = .ok false := by
  unfold _vector_memcmp at he
  cases hb : out_of_bounds h x1 o1 x2 o2 n with
  | error e1 =>
    rw [hb] at he
    simp only [Except.error.injEq] at he
    have := out_of_bounds_error h x1 o1 x2 o2 n e1 hb
    rw [this] at he
    simp at he
  | ok b =>
    cases b with
    | true =>
      rw [hb] at he
      simp at he
    | false => rfl

/-- The bounds check comes before the `switch`: a call that ends with
`UnsupportedType` was accepted by the bounds check, in both functions. -/
theorem unsupported_type_after_bounds_check (h : Heap) (x1 : SEXP) (o1 : Int) (x2 : SEXP)
    (o2 n : Int) (t : SEXPTYPE) :
    (_vector_memcmp h x1 o1 x2 o2 n = .error (.UnsupportedType t)
        → out_of_bounds h x1 o1 x2 o2 n = .ok false)
      ∧ ((_vector_memcpy h x1 o1 x2 o2 n).2 = .error (.UnsupportedType t)
        → out_of_bounds h x1 o1 x2 o2 n = .ok false) := by
  constructor
  · exact vector_memcmp_UnsupportedType h x1 o1 x2 o2 n t
  · intro he
    rcases vector_memcpy_failure h x1 o1 x2 o2 n _ he with
      ⟨h1, _⟩ | ⟨_, h2, _⟩ | ⟨h3 | h3, _⟩ | ⟨h4, _⟩
    · simp at h1
    · exact h2
    · simp at h3
    · simp at h3
    · simp at h4

/-- C17, at an input where it fails: the offset 2147483647 and the count 1 are
`int` values with `n >= 0`, their sum overflows an `int`, the range they denote
does not lie within the raw vector 3 (of length 5) of the first example heap,
and the bounds check, which compares the wrapped sum -2147483648 with the
length, accepts the call. -/
theorem C17_overflowing_sum_passes_bounds_check :
    isCInt 2147483647 ∧ isCInt 1 ∧ (0 : Int) ≤ 1
      ∧ ¬ isCInt (2147483647 + 1)
      ∧ wrapInt (2147483647 + 1) = -2147483648
      ∧ LENGTH exampleHeap 3 = .ok 5
      ∧ ¬ ((2147483647 : Int) + 1 ≤ 5)
      ∧ out_of_bounds exampleHeap 3 2147483647 4 0 1 = .ok false := by
  decide

/-- C18, at inputs where it fails: with the offset 2147483647 and the count 1
the range leaves the array, the `int` sum wraps and the bounds check accepts
the call, so the dispatch on the type is reached and the failure is
`UnsupportedType`, not `OutOfBounds`: in `_vector_memcmp` on the character
vector 5 (of length 2) of the first example heap, and in `_vector_memcpy` on
the `CHARSXP` string 10 (of length 1), an object that has a length and whose
type is none of the seven of the switch. -/
theorem C18_out_of_bounds_call_ends_with_unsupported_type :
    (LENGTH exampleHeap 5 = .ok 2 ∧ (2147483647 : Int) + 1 > 2
        ∧ out_of_bounds exampleHeap 5 2147483647 6 0 1 = .ok false
        ∧ _vector_memcmp exampleHeap 5 2147483647 6 0 1 = .error (.UnsupportedType .STRSXP))
      ∧ (LENGTH exampleHeap 10 = .ok 1 ∧ (2147483647 : Int) + 1 > 1
        ∧ out_of_bounds exampleHeap 10 2147483647 3 0 1 = .ok false
        ∧ (_vector_memcpy exampleHeap 10 2147483647 3 0 1).2
          = .error (.UnsupportedType .CHARSXP)) := by
  decide

end S4Vectors
